import Mathlib

/-!
Verification of the selector-discovery and recovery engine of the AI web
crawler repository.  The Python sources are shallowly embedded: pure data
manipulation becomes Lean functions, stateful objects become explicit state
records, and every interaction with the outside world (the language-model
endpoint, the live browser page) is an explicit environment argument whose
value the theorems quantify over.  Machine floats (confidence scores,
success probabilities) are modelled by `Rat`; Python string truthiness is
modelled by comparison with the empty string.
-/

/-- Python string slicing `s[:n]`, over code points. -/
def strTake (n : Nat) (s : String) : String := String.mk (s.data.take n)

/-- Python `str.lower()` on the ASCII data compared in this code base,
implemented over the character list (kernel-reducible, unlike
`String.toLower`). -/
def lowerStr (s : String) : String := String.mk (s.data.map Char.toLower)

/- ============================================================ -/
/- Section 1: error recovery system (error_recovery_system.py)  -/
/- ============================================================ -/

/-- Error taxonomy, from the `ErrorType` enum. -/
inductive ErrorType where
  | TIMEOUT
  | SELECTOR_NOT_FOUND
  | ELEMENT_NOT_CLICKABLE
  | NAVIGATION_FAILED
  | FORM_SUBMISSION_FAILED
  | CAPTCHA_REQUIRED
  | RATE_LIMITED
  | AUTHENTICATION_FAILED
  | NETWORK_ERROR
  | PAGE_LOAD_ERROR
  | JAVASCRIPT_ERROR
  | ACCESS_DENIED
  | UNKNOWN
  deriving DecidableEq

/-- The `ErrorContext` dataclass.  Field defaults mirror the Python
dataclass defaults (`retry_count = 0`, `max_retries = 3`).  The wall-clock
`timestamp` is irrelevant to control flow and defaults to 0. -/
structure ErrorContext where
  error_type : ErrorType
  error_message : String
  current_url : String
  target_selector : Option String := none
  action_attempted : Option String := none
  page_content : Option String := none
  timestamp : Rat := 0
  retry_count : Nat := 0
  max_retries : Nat := 3
  deriving DecidableEq

/-- One step of a recovery strategy: the Python step dicts
`{"action": ..., "target": ..., "parameters": {"timeout": ...}}`. -/
structure RecoveryStep where
  action : String
  target : Option String := none
  timeout : Option Nat := none
  deriving DecidableEq

/-- The `RecoveryStrategy` dataclass. -/
structure RecoveryStrategy where
  strategy_name : String
  steps : List RecoveryStep
  success_probability : Rat
  estimated_time : Nat
  prerequisites : List String := []
  deriving DecidableEq

/-- Per-method counters stored in `recovery_stats["recovery_methods"]`. -/
structure MethodStats where
  attempts : Nat
  successes : Nat
  failures : Nat
  success_rate : Rat
  deriving DecidableEq

/-- The zero entry inserted when a method is seen for the first time. -/
def MethodStats.zero : MethodStats :=
  { attempts := 0, successes := 0, failures := 0, success_rate := 0 }

/-- Mutable state of an `ErrorRecoverySystem` instance: `error_history`
plus the `recovery_stats` dictionary.  The per-method dictionary is an
association list in insertion order. -/
structure RecoveryState where
  error_history : List ErrorContext
  total_errors : Nat
  successful_recoveries : Nat
  failed_recoveries : Nat
  recovery_methods : List (String × MethodStats)

/-- State produced by `ErrorRecoverySystem.__init__`. -/
def RecoveryState.init : RecoveryState :=
  { error_history := [], total_errors := 0, successful_recoveries := 0,
    failed_recoveries := 0, recovery_methods := [] }

/-- The exponential backoff wait used twice in the `RATE_LIMITED` default
strategy: `min(60, 2 ** retry_count * 5)`. -/
def backoffWait (retry_count : Nat) : Nat :=
  min 60 (2 ^ retry_count * 5)

/-- `ErrorRecoverySystem._get_default_recovery_strategies`: the static
fallback table keyed by error type. -/
def get_default_recovery_strategies (ec : ErrorContext) : List RecoveryStrategy :=
  match ec.error_type with
  | ErrorType.TIMEOUT =>
      [{ strategy_name := "increase_timeout_and_retry",
         steps := [{ action := "wait", target := some "page", timeout := some 10 },
                   { action := "retry_original", target := ec.target_selector }],
         success_probability := 0.7, estimated_time := 15 }]
  | ErrorType.SELECTOR_NOT_FOUND =>
      [{ strategy_name := "wait_and_retry_selector",
         steps := [{ action := "wait", target := some "page", timeout := some 5 },
                   { action := "find_alternative_selector", target := ec.target_selector }],
         success_probability := 0.6, estimated_time := 10 },
       { strategy_name := "page_reload_and_retry",
         steps := [{ action := "reload", target := some "page" },
                   { action := "wait", target := some "page", timeout := some 5 },
                   { action := "retry_original", target := ec.target_selector }],
         success_probability := 0.5, estimated_time := 20 }]
  | ErrorType.ELEMENT_NOT_CLICKABLE =>
      [{ strategy_name := "scroll_and_click",
         steps := [{ action := "scroll_into_view", target := ec.target_selector },
                   { action := "wait", target := some "element", timeout := some 2 },
                   { action := "click", target := ec.target_selector }],
         success_probability := 0.8, estimated_time := 8 },
       { strategy_name := "remove_overlays_and_click",
         steps := [{ action := "remove_overlays", target := some "page" },
                   { action := "click", target := ec.target_selector }],
         success_probability := 0.7, estimated_time := 5 }]
  | ErrorType.RATE_LIMITED =>
      [{ strategy_name := "exponential_backoff",
         steps := [{ action := "wait", target := some "page",
                     timeout := some (backoffWait ec.retry_count) },
                   { action := "retry_original", target := ec.target_selector }],
         success_probability := 0.6, estimated_time := backoffWait ec.retry_count }]
  | ErrorType.NETWORK_ERROR =>
      [{ strategy_name := "network_retry",
         steps := [{ action := "wait", target := some "page", timeout := some 10 },
                   { action := "reload", target := some "page" },
                   { action := "wait_for_load", target := some "page" }],
         success_probability := 0.5, estimated_time := 20 }]
  | _ =>
      [{ strategy_name := "generic_retry",
         steps := [{ action := "wait", target := some "page", timeout := some 5 },
                   { action := "retry_original", target := ec.target_selector }],
         success_probability := 0.3, estimated_time := 10 }]

/-- `ErrorRecoverySystem._generate_recovery_strategies`: asks the model for
strategies and, if the call or the parse fails, substitutes the static
table.  The model call is an environment value: `some parsed` when the AI
query succeeded and returned `parsed`, `none` when it raised. -/
def generate_recovery_strategies (ec : ErrorContext)
    (aiResult : Option (List RecoveryStrategy)) : List RecoveryStrategy :=
  match aiResult with
  | some parsed => parsed
  | none => get_default_recovery_strategies ec

/-- Update of one per-method entry inside `_update_recovery_stats`:
increment `attempts`, one of `successes`/`failures`, recompute
`success_rate = successes / attempts`. -/
def updateMethodEntry (s : MethodStats) (success : Bool) : MethodStats :=
  let a := s.attempts + 1
  let su := if success then s.successes + 1 else s.successes
  let f := if success then s.failures else s.failures + 1
  { attempts := a, successes := su, failures := f,
    success_rate := (su : Rat) / (a : Rat) }

/-- `ErrorRecoverySystem._update_recovery_stats`: insert a zero entry for a
method seen for the first time, then mutate that method's entry. -/
def update_recovery_stats (st : RecoveryState) (method : String) (success : Bool) :
    RecoveryState :=
  let methods :=
    if (st.recovery_methods.lookup method).isSome then st.recovery_methods
    else st.recovery_methods ++ [(method, MethodStats.zero)]
  { st with recovery_methods :=
      methods.map (fun p => if p.1 = method then (p.1, updateMethodEntry p.2 success) else p) }

/-- The structured return value of `handle_error`. -/
structure HandleErrorResult where
  success : Bool
  error : Option String := none
  recovery_method : Option String := none
  retry_count : Nat
  strategies_attempted : Option (List String) := none

/-- Full outcome of one `handle_error` call: the returned dict, the state
of the system afterwards, and an execution trace (`modelCalled` records
whether `_generate_recovery_strategies` ran — i.e. whether the language
model was queried — and `strategiesTried` the strategies actually
executed, in order). -/
structure HandleErrorOutcome where
  result : HandleErrorResult
  state : RecoveryState
  modelCalled : Bool
  strategiesTried : List String

/-- The strategy-attempt loop of `handle_error` (`for strategy in
recovery_strategies[:3]`): execute each strategy (outcome given by the
environment `exec`), updating statistics, stopping at the first success.
Returns the successful method name (if any), the updated state, and the
names tried. -/
def attemptStrategies (exec : RecoveryStrategy → Bool) :
    List RecoveryStrategy → RecoveryState → Option String × RecoveryState × List String
  | [], st => (none, st, [])
  | s :: rest, st =>
    if exec s then
      let st1 : RecoveryState :=
        { st with successful_recoveries := st.successful_recoveries + 1 }
      (some s.strategy_name, update_recovery_stats st1 s.strategy_name true,
       [s.strategy_name])
    else
      let st1 := update_recovery_stats st s.strategy_name false
      let r := attemptStrategies exec rest st1
      (r.1, r.2.1, s.strategy_name :: r.2.2)

/-- `ErrorRecoverySystem.handle_error`.  Environment arguments: `aiResult`
is the outcome of the strategy-generation model call (consulted only when
the retry ceiling has not been hit), `custom_strategies` the optional
caller-supplied list, `exec` the outcome of executing each strategy
against the live page. -/
def handle_error (st : RecoveryState) (ec : ErrorContext)
    (aiResult : Option (List RecoveryStrategy))
    (custom_strategies : Option (List RecoveryStrategy))
    (exec : RecoveryStrategy → Bool) : HandleErrorOutcome :=
  let st1 : RecoveryState :=
    { st with error_history := st.error_history ++ [ec],
              total_errors := st.total_errors + 1 }
  if ec.retry_count ≥ ec.max_retries then
    { result := { success := false, error := some "Max retries exceeded",
                  retry_count := ec.retry_count },
      state := st1, modelCalled := false, strategiesTried := [] }
  else
    let generated := generate_recovery_strategies ec aiResult
    let strategies := generated ++ custom_strategies.getD []
    let sorted := strategies.mergeSort
      (fun a b => decide (b.success_probability ≤ a.success_probability))
    let top := sorted.take 3
    let out := attemptStrategies exec top st1
    match out.1 with
    | some name =>
      { result := { success := true, recovery_method := some name,
                    retry_count := ec.retry_count + 1 },
        state := out.2.1, modelCalled := true, strategiesTried := out.2.2 }
    | none =>
      { result := { success := false, error := some "All recovery strategies failed",
                    strategies_attempted := some (top.map (fun s => s.strategy_name)),
                    retry_count := ec.retry_count },
        state := { out.2.1 with failed_recoveries := out.2.1.failed_recoveries + 1 },
        modelCalled := true, strategiesTried := out.2.2 }

/- ============================================================ -/
/- Section 2: grouper and intent resolver (main.py)             -/
/- ============================================================ -/

/-- A generic extracted-selector dict as the consumer functions in
`main.py` see it: every key is read with `.get` and a default, so each
field is an `Option` with `none` for an absent key.  `typ` models the
`"type"` key, `cls` the `"class"` key and `attr` the `"attribute"` key. -/
structure RawItem where
  uuid : Option String := none
  selector : Option String := none
  tag : Option String := none
  text_content : Option String := none
  text : Option String := none
  typ : Option String := none
  name : Option String := none
  placeholder : Option String := none
  href : Option String := none
  attr : Option String := none
  value : Option String := none
  selectors : Option (List String) := none
  action : Option String := none
  method : Option String := none
  id : Option String := none
  cls : Option String := none
  deriving DecidableEq

/-- The dictionary produced by `extract_all_selectors` as its consumers
index it: nine lists of selector dicts keyed by selector type. -/
structure RawSelectors where
  id_selectors : List RawItem := []
  class_selectors : List RawItem := []
  name_selectors : List RawItem := []
  type_selectors : List RawItem := []
  attribute_selectors : List RawItem := []
  input_selectors : List RawItem := []
  button_selectors : List RawItem := []
  link_selectors : List RawItem := []
  form_selectors : List RawItem := []
  deriving DecidableEq

/-- All extracted items, in the order `group_selectors_by_category`
traverses the selector types. -/
def RawSelectors.allItems (ex : RawSelectors) : List RawItem :=
  ex.id_selectors ++ ex.class_selectors ++ ex.name_selectors ++ ex.type_selectors ++
  ex.attribute_selectors ++ ex.input_selectors ++ ex.button_selectors ++
  ex.link_selectors ++ ex.form_selectors

/-- The uuids present in the extracted data. -/
def extractedUuids (ex : RawSelectors) : List String :=
  ex.allItems.filterMap (fun it => it.uuid)

/-- One classifier output dict (`category`, `uuid`, `confidence`), again
with `Option` for keys that may be missing from a model response. -/
structure CategorizedItem where
  uuid : Option String := none
  category : Option String := none
  confidence : Option Rat := none
  deriving DecidableEq

/-- An enriched selector as built by `group_selectors_by_category`:
the join of a categorization entry with the matching extracted dict.
Keys the Python code adds only for some selector types default to the
empty string / empty list, which is what the resolver's `.get` calls
observe (both are falsy). -/
structure EnrichedSelector where
  uuid : String
  confidence : Rat
  selector : String
  tag : String
  text_content : String
  selector_type : String
  original : RawItem
  input_type : String := ""
  name : String := ""
  placeholder : String := ""
  selectors : List String := []
  button_type : String := ""
  button_text : String := ""
  href : String := ""
  attr : String := ""
  value : String := ""
  deriving DecidableEq

/-- One pass of building `uuid_lookup` over the items of one selector
type: Python dict assignment `uuid_lookup[uuid] = ...`.  The dict is an
association list accessed with front-first `List.lookup`, so consing the
new binding makes the latest assignment win, as in Python. -/
def addLookupList (ty : String) (items : List RawItem)
    (d : List (String × String × RawItem)) : List (String × String × RawItem) :=
  match items with
  | [] => d
  | it :: rest =>
    match it.uuid with
    | some u => addLookupList ty rest ((u, ty, it) :: d)
    | none => addLookupList ty rest d

/-- The `uuid_lookup` dictionary of `group_selectors_by_category`:
uuid → (selector_type, item), taken over the nine selector-type lists. -/
def uuid_lookup (ex : RawSelectors) : List (String × String × RawItem) :=
  [] |> addLookupList "id_selectors" ex.id_selectors
     |> addLookupList "class_selectors" ex.class_selectors
     |> addLookupList "name_selectors" ex.name_selectors
     |> addLookupList "type_selectors" ex.type_selectors
     |> addLookupList "attribute_selectors" ex.attribute_selectors
     |> addLookupList "input_selectors" ex.input_selectors
     |> addLookupList "button_selectors" ex.button_selectors
     |> addLookupList "link_selectors" ex.link_selectors
     |> addLookupList "form_selectors" ex.form_selectors

/-- Construction of one enriched selector entry, including the
type-specific keys added for input / button / link / attribute items. -/
def mkEnriched (u : String) (conf : Rat) (ty : String) (it : RawItem) :
    EnrichedSelector :=
  let base : EnrichedSelector :=
    { uuid := u, confidence := conf,
      selector := it.selector.getD "N/A",
      tag := it.tag.getD "N/A",
      text_content := strTake 200 (it.text_content.getD (it.text.getD "")),
      selector_type := ty, original := it }
  if ty = "input_selectors" then
    { base with input_type := it.typ.getD "", name := it.name.getD "",
                placeholder := it.placeholder.getD "",
                selectors := it.selectors.getD [] }
  else if ty = "button_selectors" then
    { base with button_type := it.typ.getD "", button_text := it.text.getD "",
                selectors := it.selectors.getD [] }
  else if ty = "link_selectors" then
    { base with href := it.href.getD "" }
  else if ty = "attribute_selectors" then
    { base with attr := it.attr.getD "", value := it.value.getD "" }
  else base

/-- Append an enriched selector to its category's list in the grouped
dictionary (`grouped_by_category[category].append(...)`). -/
def addToGroup (m : List (String × List EnrichedSelector)) (cat : String)
    (e : EnrichedSelector) : List (String × List EnrichedSelector) :=
  match m with
  | [] => [(cat, [e])]
  | (c, l) :: rest =>
    if c = cat then (c, l ++ [e]) :: rest else (c, l) :: addToGroup rest cat e

/-- The per-item body of the `for categorized_item in categorized_selectors`
loop of `group_selectors_by_category`: join one categorization entry with
the matching extracted dict; an item without a uuid, or whose uuid has no
match in the lookup, leaves the grouping unchanged (it is only logged). -/
def groupStep (extracted : RawSelectors)
    (acc : List (String × List EnrichedSelector)) (ci : CategorizedItem) :
    List (String × List EnrichedSelector) :=
  match ci.uuid with
  | none => acc
  | some u =>
    match (uuid_lookup extracted).lookup u with
    | some (ty, it) =>
        addToGroup acc (ci.category.getD "uncategorized")
          (mkEnriched u (ci.confidence.getD 0) ty it)
    | none => acc

/-- `group_selectors_by_category` (main.py): join categorization output
with extracted selector data by uuid; unmatched uuids are only counted and
logged, producing no output entry. -/
def group_selectors_by_category (extracted : RawSelectors)
    (categorized : List CategorizedItem) : List (String × List EnrichedSelector) :=
  categorized.foldl (groupStep extracted) []

/-- Outcome of one resolver batch query, covering the whole
network-and-decode pipeline of `ask_local_ai_for_specific_selectors`:
`apiError` for any exception caught by the outer handler, `parseFailure`
for `json.JSONDecodeError`, `jsonObj` for a decoded JSON object (the
prompt demands string values), `jsonNonObj` for decoded JSON that is not
an object. -/
inductive ResolverResponse where
  | apiError
  | parseFailure
  | jsonObj (fields : List (String × String))
  | jsonNonObj
  deriving DecidableEq

/-- The resolver's validity guard on the single key/value pair: both must
be truthy and neither may be the literal "none"/"null" case-insensitively. -/
def validKV (k v : String) : Bool :=
  !(k == "") && !(["none", "null"].contains (lowerStr k)) &&
  !(v == "") && !(["none", "null"].contains (lowerStr v))

/-- The answer the resolver accepts from one response: a JSON object with
exactly one key whose key and value pass `validKV`; anything else makes
the loop continue with the next batch. -/
def responseAnswer (r : ResolverResponse) : Option (String × String) :=
  match r with
  | ResolverResponse.jsonObj [(k, v)] => if validKV k v then some (k, v) else none
  | _ => none

/-- The per-batch candidate list sent to the model: only entries with a
truthy `selector` key survive (`if sel.get('selector')`).  The remaining
entry fields feed only the prompt text, which is absorbed into the
response environment. -/
def batchSelectorsList (batch : List EnrichedSelector) : List EnrichedSelector :=
  batch.filter (fun s => s.selector ≠ "")

/-- Fuel-driven fixed-size chunking, mirroring
`range(0, total, batch_size)` slicing; fuel `l.length` suffices for any
positive chunk size. -/
def chunksOfAux {α : Type} (n : Nat) : Nat → List α → List (List α)
  | 0, _ => []
  | _, [] => []
  | fuel + 1, l => l.take n :: chunksOfAux n fuel (l.drop n)

/-- The list of successive batches of size `n` of `l`. -/
def chunksOf {α : Type} (n : Nat) (l : List α) : List (List α) :=
  chunksOfAux n l.length l

/-- The batch loop of `ask_local_ai_for_specific_selectors`: skip batches
whose candidate list is empty, query the model otherwise, return the first
accepted answer, fall through to the next batch on anything invalid. -/
def resolverLoop (respond : Nat → ResolverResponse) :
    List (List EnrichedSelector) → Nat → Option (String × String)
  | [], _ => none
  | batch :: rest, i =>
    if (batchSelectorsList batch).isEmpty then resolverLoop respond rest (i + 1)
    else
      match responseAnswer (respond i) with
      | some ans => some ans
      | none => resolverLoop respond rest (i + 1)

/-- `ask_local_ai_for_specific_selectors` (main.py): batches of 25,
first accepted answer wins, `none` (the empty dict) when all batches are
exhausted.  `respond` gives the model response for each batch index. -/
def ask_local_ai_for_specific_selectors (pool : List EnrichedSelector)
    (respond : Nat → ResolverResponse) : Option (String × String) :=
  resolverLoop respond (chunksOf 25 pool) 0

/-- Whether the batch at position `i` of the loop over `bs`, with batch
indices starting at `n`, is queried (its candidate list is non-empty) and
yields an accepted answer. -/
def loopValidAt (bs : List (List EnrichedSelector))
    (respond : Nat → ResolverResponse) (n i : Nat) : Bool :=
  match bs, i with
  | [], _ => false
  | b :: _, 0 => !(batchSelectorsList b).isEmpty && (responseAnswer (respond n)).isSome
  | _ :: rest, i + 1 => loopValidAt rest respond (n + 1) i

/-- Whether batch `i` of the resolver run on `pool` yields an accepted
answer. -/
def validBatchAt (pool : List EnrichedSelector)
    (respond : Nat → ResolverResponse) (i : Nat) : Bool :=
  loopValidAt (chunksOf 25 pool) respond 0 i

/-- A sample enriched candidate for concrete runs. -/
def sampleCandidate : EnrichedSelector :=
  { uuid := "u1", confidence := 0.9, selector := "#u", tag := "input",
    text_content := "", selector_type := "input_selectors", original := {} }

/-- A 26-candidate pool: two resolver batches of sizes 25 and 1. -/
def samplePool : List EnrichedSelector := List.replicate 26 sampleCandidate

/-- A response environment whose first batch answers the invalid
`{"x": "none"}` and whose second batch answers a valid selector. -/
def sampleRespond : Nat → ResolverResponse := fun i =>
  if i = 0 then ResolverResponse.jsonObj [("x", "none")]
  else ResolverResponse.jsonObj [("username_selector", "#u")]

/-- A sample extracted id-selector dict. -/
def sampleIdItem : RawItem :=
  { uuid := some "a", selector := some "#user-email", tag := some "input",
    text_content := some "" }

/-- Extracted data containing exactly one id selector. -/
def sampleRawSelectors : RawSelectors :=
  { id_selectors := [sampleIdItem] }

/-- A categorization run matching the sample id selector. -/
def sampleCategorized : List CategorizedItem :=
  [{ uuid := some "a", category := some "authentication_account",
     confidence := some 0.9 }]

/-- The enriched entry the grouper builds for the sample data. -/
def sampleEnriched : EnrichedSelector :=
  mkEnriched "a" 0.9 "id_selectors" sampleIdItem

/- ============================================================ -/
/- Section 3: category classifier (selector_categorizer.py,     -/
/- utilities_local_ai.py)                                       -/
/- ============================================================ -/

/-- Python substring test `sub in s` over character lists. -/
def hasSubAux (sub : List Char) : List Char → Bool
  | [] => sub.isPrefixOf []
  | c :: t => sub.isPrefixOf (c :: t) || hasSubAux sub t

/-- Python `sub in s` on strings. -/
def hasSubstr (s sub : String) : Bool := hasSubAux sub.data s.data

/-- One entry of the flat list built by
`SelectorCategorizer.prepare_all_selectors`: `typeName` is the `"type"`
key ("ID", "Class", ...); the `additional_info` sub-dict is flattened into
the trailing optional fields. -/
structure PreparedSelector where
  uuid : String
  typeName : String
  selector : String
  tag : String
  text : String
  input_type : String := ""
  name : String := ""
  placeholder : String := ""
  button_type : String := ""
  button_text : String := ""
  href : String := ""
  deriving DecidableEq

/-- `prepare_all_selectors` body for one item of one selector type. -/
def prepareItem (typeKey typeName : String) (it : RawItem) : PreparedSelector :=
  let base : PreparedSelector :=
    { uuid := it.uuid.getD "N/A", typeName := typeName,
      selector := it.selector.getD "N/A", tag := it.tag.getD "N/A",
      text := strTake 100 (it.text_content.getD (it.text.getD "")) }
  if typeKey = "input_selectors" then
    { base with input_type := it.typ.getD "", name := it.name.getD "",
                placeholder := it.placeholder.getD "" }
  else if typeKey = "button_selectors" then
    { base with button_type := it.typ.getD "", button_text := it.text.getD "" }
  else if typeKey = "link_selectors" then
    { base with href := strTake 100 (it.href.getD "") }
  else base

/-- `SelectorCategorizer.prepare_all_selectors`: flatten seven selector
types (type and attribute selectors are not classified) in source order. -/
def prepare_all_selectors (sel : RawSelectors) : List PreparedSelector :=
  (sel.id_selectors.map (prepareItem "id_selectors" "ID")) ++
  (sel.class_selectors.map (prepareItem "class_selectors" "Class")) ++
  (sel.name_selectors.map (prepareItem "name_selectors" "Name")) ++
  (sel.input_selectors.map (prepareItem "input_selectors" "Input")) ++
  (sel.button_selectors.map (prepareItem "button_selectors" "Button")) ++
  (sel.link_selectors.map (prepareItem "link_selectors" "Link")) ++
  (sel.form_selectors.map (prepareItem "form_selectors" "Form"))

/-- The keyword rule of `create_fallback_categorization` for one selector
string: first matching keyword family wins, with the fixed confidences of
the source (0.7 / 0.8 / 0.8 / 0.7, default 0.3). -/
def fallbackCategoryOf (selector : String) : String × Rat :=
  let s := lowerStr selector
  if ["nav", "menu", "header", "footer", "breadcrumb", "sidebar", "main",
      "banner"].any (fun kw => hasSubstr s kw) then
    ("navigation_layout", 0.7)
  else if ["login", "signin", "signup", "register", "auth", "account", "user",
      "profile", "password"].any (fun kw => hasSubstr s kw) then
    ("authentication_account", 0.8)
  else if ["search", "filter", "sort", "query", "find"].any
      (fun kw => hasSubstr s kw) then
    ("search_filters", 0.8)
  else if ["product", "item", "detail", "review", "rating", "cart", "buy",
      "price"].any (fun kw => hasSubstr s kw) then
    ("product_details", 0.7)
  else
    ("uncategorized_selector", 0.3)

/-- The (uuid, selector) pairs `create_fallback_categorization` collects
from one selector-type list: items carrying a `"selector"` key. -/
def fallbackPairsOf (items : List RawItem) : List (String × String) :=
  items.filterMap (fun it =>
    match it.selector with
    | some s => some (it.uuid.getD "N/A", s)
    | none => none)

/-- All (uuid, selector) pairs the fallback collects, in source order
(the same seven selector types as `prepare_all_selectors`). -/
def fallbackItems (sel : RawSelectors) : List (String × String) :=
  fallbackPairsOf sel.id_selectors ++ fallbackPairsOf sel.class_selectors ++
  fallbackPairsOf sel.name_selectors ++ fallbackPairsOf sel.input_selectors ++
  fallbackPairsOf sel.button_selectors ++ fallbackPairsOf sel.link_selectors ++
  fallbackPairsOf sel.form_selectors

/-- `SelectorCategorizer.create_fallback_categorization`: deterministic
keyword-matching categorization of the first 200 collected selectors. -/
def create_fallback_categorization (sel : RawSelectors) : List CategorizedItem :=
  ((fallbackItems sel).take 200).map (fun p =>
    let cc := fallbackCategoryOf p.2
    { uuid := some p.1, category := some cc.1, confidence := some cc.2 })

/-- Outcome of one classification batch, covering the provider call and
the JSON decode: `apiError` for any exception other than a JSON decode
failure, `parseError` for `json.JSONDecodeError`, `jsonList` for a decoded
JSON array of assignment dicts, `jsonOther` for decoded JSON of any other
shape. -/
inductive CatBatchResponse where
  | apiError
  | parseError
  | jsonList (assignments : List CategorizedItem)
  | jsonOther
  deriving DecidableEq

/-- Whether a batch outcome is caught by the two exception handlers of
`categorize_selectors_with_ai` (parse or API error). -/
def isFailedBatch (r : CatBatchResponse) : Bool :=
  match r with
  | CatBatchResponse.apiError => true
  | CatBatchResponse.parseError => true
  | _ => false

/-- Whether a batch outcome is a decoded JSON array (the only outcome
`local_ai_selector_categorizer` counts as a successful batch). -/
def isListResponse (r : CatBatchResponse) : Bool :=
  match r with
  | CatBatchResponse.jsonList _ => true
  | _ => false

/-- The batch loop of `categorize_selectors_with_ai`: per-batch errors are
caught and skip only that batch; a decoded array extends `final_result`; a
decoded non-array contributes nothing but still counts as a successful
batch.  Returns (final_result, successful_batches). -/
def catLoop (respond : Nat → CatBatchResponse) :
    List (List PreparedSelector) → Nat → List CategorizedItem × Nat
  | [], _ => ([], 0)
  | _ :: rest, i =>
    let tail := catLoop respond rest (i + 1)
    match respond i with
    | CatBatchResponse.apiError => tail
    | CatBatchResponse.parseError => tail
    | CatBatchResponse.jsonList l => (l ++ tail.1, tail.2 + 1)
    | CatBatchResponse.jsonOther => (tail.1, tail.2 + 1)

/-- `SelectorCategorizer.categorize_selectors_with_ai`: batches of 40,
empty input short-circuits to the empty categorization, and the rule-based
fallback replaces the result only when no batch succeeded.  `respond`
gives each batch's outcome (batch indices from 0). -/
def categorize_selectors_with_ai (sel : RawSelectors)
    (respond : Nat → CatBatchResponse) : List CategorizedItem :=
  let all := prepare_all_selectors sel
  if all.length = 0 then []
  else
    let batches := chunksOf 40 all
    let out := catLoop respond batches 0
    if out.2 = 0 then create_fallback_categorization sel else out.1

/-- The merge loop of `local_ai_selector_categorizer`: results are
gathered per batch (asyncio.gather preserves task order, so the merge is
deterministic in batch order); only a decoded JSON array counts as a
success and extends the result. -/
def catLoopLocal (respond : Nat → CatBatchResponse) :
    List (List PreparedSelector) → Nat → List CategorizedItem × Nat
  | [], _ => ([], 0)
  | _ :: rest, i =>
    let tail := catLoopLocal respond rest (i + 1)
    match respond i with
    | CatBatchResponse.jsonList l => (l ++ tail.1, tail.2 + 1)
    | _ => tail

/-- `local_ai_selector_categorizer` (utilities_local_ai.py): batches of
20 dispatched across two model endpoints (the endpoint choice is absorbed
into `respond`), fallback only when no batch succeeded. -/
def local_ai_selector_categorizer (sel : RawSelectors)
    (respond : Nat → CatBatchResponse) : List CategorizedItem :=
  let all := prepare_all_selectors sel
  if all.length = 0 then []
  else
    let batches := chunksOf 20 all
    let out := catLoopLocal respond batches 0
    if out.2 = 0 then create_fallback_categorization sel else out.1

/-- The assignments contributed by `len` consecutive batches starting at
batch index `n`: each batch that decoded to an array contributes its
entries in order; every other batch contributes nothing. -/
def catListFrom (respond : Nat → CatBatchResponse) (n : Nat) :
    Nat → List CategorizedItem
  | 0 => []
  | len + 1 =>
    (match respond n with
     | CatBatchResponse.jsonList l => l
     | _ => []) ++ catListFrom respond (n + 1) len

/-- Successful-batch count of `categorize_selectors_with_ai` over `len`
batches starting at `n`. -/
def catCountFrom (respond : Nat → CatBatchResponse) (n : Nat) : Nat → Nat
  | 0 => 0
  | len + 1 =>
    (if isFailedBatch (respond n) then 0 else 1) + catCountFrom respond (n + 1) len

/-- Successful-batch count of `local_ai_selector_categorizer` over `len`
batches starting at `n`. -/
def catCountLocalFrom (respond : Nat → CatBatchResponse) (n : Nat) : Nat → Nat
  | 0 => 0
  | len + 1 =>
    (if isListResponse (respond n) then 1 else 0) + catCountLocalFrom respond (n + 1) len

/-- Extracted data with one class selector, for concrete classifier runs. -/
def sampleClassSelectors : RawSelectors :=
  { class_selectors := [{ uuid := some "b", selector := some ".login-button",
                          tag := some "button", text_content := some "Login" }] }

/-- A sample classifier assignment for the sample class selector. -/
def sampleAssignment : CategorizedItem :=
  { uuid := some "b", category := some "authentication_account",
    confidence := some 0.8 }

/-- A response environment in which every classifier batch decodes to the
one-element assignment array. -/
def sampleListRespond : Nat → CatBatchResponse :=
  fun _ => CatBatchResponse.jsonList [sampleAssignment]

/- ============================================================ -/
/- Section 4: candidate extractor (test_extract_selector.py)    -/
/- ============================================================ -/

/-- Strip leading and trailing whitespace (Python `get_text(strip=True)`
post-processing in the parser model). -/
def trimWS (s : String) : String :=
  String.mk (((s.data.dropWhile Char.isWhitespace).reverse.dropWhile
    Char.isWhitespace).reverse)

/-- Split a class attribute value on whitespace, dropping empty pieces
(bs4 multi-valued attribute handling). -/
def splitWSAux (acc : List Char) : List Char → List String
  | [] => if acc.isEmpty then [] else [String.mk acc.reverse]
  | c :: t =>
    if c.isWhitespace then
      if acc.isEmpty then splitWSAux [] t
      else String.mk acc.reverse :: splitWSAux [] t
    else splitWSAux (c :: acc) t

/-- The class list of a `class="..."` attribute value. -/
def splitClasses (s : String) : List String := splitWSAux [] s.data

/-- One parsed DOM element as the extractor consumes it: the tag name,
the attribute dictionary (`element.get`), the parsed multi-valued class
attribute, and the stripped text content (`element.get_text(strip=True)`). -/
structure HtmlElement where
  tag : String
  attrs : List (String × String) := []
  classes : List String := []
  text : String := ""
  deriving DecidableEq

/-- `element.get(a)` with Python truthiness folded in: `some v` exactly
when the attribute is present with a non-empty value. -/
def getTruthy (e : HtmlElement) (a : String) : Option String :=
  match e.attrs.lookup a with
  | some v => if v = "" then none else some v
  | none => none

/-- `element.get(a, d)`: the attribute value, or the default when the
attribute is absent. -/
def getAttrD (e : HtmlElement) (a d : String) : String :=
  (e.attrs.lookup a).getD d

/-- Characters allowed in a tag or attribute name by the parser model. -/
def isNameChar (c : Char) : Bool :=
  c.isAlpha || c.isDigit || c == '-' || c == '_' || c == ':'

/-- Split a character list at the first character failing `p`. -/
def takeWhileCL (p : Char → Bool) : List Char → List Char × List Char
  | [] => ([], [])
  | c :: t =>
    if p c then
      let r := takeWhileCL p t
      (c :: r.1, r.2)
    else ([], c :: t)

/-- Modelled from the spec: attribute parsing of BeautifulSoup's lenient
`html.parser` front end (an external library, not part of this
repository).  Fuel-bounded and total: reads `name`, `name=value`,
`name="value"` or `name='value'` pairs until the closing `>` (or the end
of input), lowercasing attribute names, and never fails on malformed
input. -/
def parseAttrs : Nat → List Char → List (String × String) × List Char
  | 0, cs => ([], cs)
  | _, [] => ([], [])
  | fuel + 1, c :: t =>
    if c == '>' then ([], t)
    else if c == '/' || c.isWhitespace then parseAttrs fuel t
    else
      let n := takeWhileCL isNameChar (c :: t)
      if n.1.isEmpty then parseAttrs fuel t
      else
        let nm := String.mk (n.1.map Char.toLower)
        match n.2 with
        | '=' :: r2 =>
          match r2 with
          | '"' :: r3 =>
            let v := takeWhileCL (fun ch => !(ch == '"')) r3
            let r4 := match v.2 with
              | _ :: rr => rr
              | [] => []
            let acc := parseAttrs fuel r4
            ((nm, String.mk v.1) :: acc.1, acc.2)
          | '\'' :: r3 =>
            let v := takeWhileCL (fun ch => !(ch == '\'')) r3
            let r4 := match v.2 with
              | _ :: rr => rr
              | [] => []
            let acc := parseAttrs fuel r4
            ((nm, String.mk v.1) :: acc.1, acc.2)
          | _ =>
            let v := takeWhileCL (fun ch => !(ch == ' ' || ch == '>')) r2
            let acc := parseAttrs fuel v.2
            ((nm, String.mk v.1) :: acc.1, acc.2)
        | _ =>
          let acc := parseAttrs fuel n.2
          ((nm, "") :: acc.1, acc.2)

/-- Modelled from the spec: the element scan of BeautifulSoup's lenient
`html.parser` (external library).  Produces the elements in document
order, flattening nesting (the spec only requires that every element is
enumerated once, best-effort, with no failure for any input); the raw
text up to the next tag becomes the element's stripped text.  Fuel-driven
and therefore total on every string. -/
def parseElems : Nat → List Char → List HtmlElement
  | 0, _ => []
  | _, [] => []
  | fuel + 1, c :: t =>
    if c == '<' then
      match t with
      | c2 :: _ =>
        if c2.isAlpha then
          let n := takeWhileCL isNameChar t
          let pa := parseAttrs (n.2.length + 1) n.2
          let txt := takeWhileCL (fun ch => !(ch == '<')) pa.2
          let attrs := pa.1
          { tag := String.mk (n.1.map Char.toLower), attrs := attrs,
            classes := splitClasses ((attrs.lookup "class").getD ""),
            text := trimWS (String.mk txt.1) } :: parseElems fuel pa.2
        else
          let sk := takeWhileCL (fun ch => !(ch == '>')) t
          parseElems fuel (match sk.2 with
            | _ :: rr => rr
            | [] => [])
      | [] => []
    else parseElems fuel t

/-- Modelled from the spec: `BeautifulSoup(html, "html.parser")` followed
by `soup.find_all()` — lenient parsing of any string, never raising. -/
def parseHTML (html : String) : List HtmlElement :=
  parseElems html.data.length html.data

/-- An id- or class-selector record (`uuid`, `selector`, `tag`,
`text_content`). -/
structure IdClassRecord where
  uuid : String
  selector : String
  tag : String
  text_content : String
  deriving DecidableEq

/-- A name-selector record (`typ` is the `"type"` key). -/
structure NameRecord where
  uuid : String
  selector : String
  tag : String
  typ : String
  text_content : String
  deriving DecidableEq

/-- A type-selector record. -/
structure TypeRecord where
  uuid : String
  selector : String
  tag : String
  name : String
  id : String
  text_content : String
  deriving DecidableEq

/-- An attribute-selector record (`attrName` is the `"attribute"` key). -/
structure AttrRecord where
  uuid : String
  selector : String
  tag : String
  attrName : String
  value : String
  text_content : String
  deriving DecidableEq

/-- An input-selector record. -/
structure InputRecord where
  uuid : String
  tag : String
  typ : String
  name : String
  id : String
  placeholder : String
  selectors : List String
  deriving DecidableEq

/-- A button-selector record. -/
structure ButtonRecord where
  uuid : String
  tag : String
  typ : String
  text : String
  id : String
  name : String
  selectors : List String
  deriving DecidableEq

/-- A link-selector record (`cls` is the `"class"` key). -/
structure LinkRecord where
  uuid : String
  selector : String
  href : String
  text : String
  id : String
  cls : String
  deriving DecidableEq

/-- A form-selector record. -/
structure FormRecord where
  uuid : String
  tag : String
  action : String
  method : String
  id : String
  name : String
  selectors : List String
  deriving DecidableEq

/-- The `statistics` sub-dict.  Python keeps `unique_tags` in a set whose
iteration order is unspecified; the model keeps first-insertion order. -/
structure ExtractStats where
  total_elements : Nat
  elements_with_id : Nat
  elements_with_class : Nat
  elements_with_name : Nat
  unique_tags : List String
  url : Option String
  deriving DecidableEq

/-- A sample element inside a combined-pattern record
(`tag` / `attributes` / truncated `text`). -/
structure SampleElement where
  tag : String
  attrs : List (String × String)
  classAttr : List String
  text : String
  deriving DecidableEq

/-- One entry of `combined_selectors`. -/
structure CombinedRecord where
  pattern : String
  description : String
  count : Nat
  sample_elements : List SampleElement
  deriving DecidableEq

/-- The full dictionary returned by `extract_all_selectors`. -/
structure SelectorsOut where
  id_selectors : List IdClassRecord := []
  class_selectors : List IdClassRecord := []
  name_selectors : List NameRecord := []
  type_selectors : List TypeRecord := []
  attribute_selectors : List AttrRecord := []
  input_selectors : List InputRecord := []
  button_selectors : List ButtonRecord := []
  link_selectors : List LinkRecord := []
  form_selectors : List FormRecord := []
  combined_selectors : List CombinedRecord := []
  statistics : ExtractStats
  deriving DecidableEq

/-- The loop state of `extract_all_selectors`: the output under
construction, the four de-duplication sets (insertion-ordered lists), and
the position of the uuid supply (Python draws a fresh `uuid.uuid4()` per
record; the model draws `gen counter` and increments). -/
structure ExtractState where
  out : SelectorsOut
  unique_ids : List String
  unique_classes : List String
  unique_names : List String
  unique_attributes : List String
  counter : Nat
  deriving DecidableEq

/-- Statistics at loop entry: seeded with `len(all_elements)`. -/
def initStats (es : List HtmlElement) (url : Option String) : ExtractStats :=
  { total_elements := es.length, elements_with_id := 0,
    elements_with_class := 0, elements_with_name := 0, unique_tags := [],
    url := url }

/-- State at loop entry. -/
def initExtractState (es : List HtmlElement) (url : Option String) : ExtractState :=
  { out := { statistics := initStats es url },
    unique_ids := [], unique_classes := [], unique_names := [],
    unique_attributes := [], counter := 0 }

/-- `statistics['unique_tags'].add(tag_name)` at the top of the loop. -/
def stepTag (e : HtmlElement) (st : ExtractState) : ExtractState :=
  if e.tag ∈ st.out.statistics.unique_tags then st
  else
    { st with out := { st.out with statistics := { st.out.statistics with
        unique_tags := st.out.statistics.unique_tags ++ [e.tag] } } }

/-- Id-selector extraction: one candidate per id value never seen before
in this run (first occurrence wins). -/
def stepId (gen : Nat → String) (e : HtmlElement) (st : ExtractState) :
    ExtractState :=
  match getTruthy e "id" with
  | some i =>
    if i ∈ st.unique_ids then st
    else
      { st with
        out := { st.out with
          id_selectors := st.out.id_selectors ++
            [{ uuid := gen st.counter, selector := "#" ++ i, tag := e.tag,
               text_content := strTake 200 e.text }],
          statistics := { st.out.statistics with
            elements_with_id := st.out.statistics.elements_with_id + 1 } },
        unique_ids := st.unique_ids ++ [i],
        counter := st.counter + 1 }
  | none => st

/-- Class-selector extraction for one class value: one candidate per
distinct class value. -/
def addClassName (gen : Nat → String) (e : HtmlElement) (st : ExtractState)
    (c : String) : ExtractState :=
  if c ∈ st.unique_classes then st
  else
    { st with
      out := { st.out with
        class_selectors := st.out.class_selectors ++
          [{ uuid := gen st.counter, selector := "." ++ c, tag := e.tag,
             text_content := strTake 200 e.text }] },
      unique_classes := st.unique_classes ++ [c],
      counter := st.counter + 1 }

/-- Class-selector extraction for one element (`if element.get('class')`
then a loop over its class values, then the statistics bump). -/
def stepClass (gen : Nat → String) (e : HtmlElement) (st : ExtractState) :
    ExtractState :=
  if e.classes = [] then st
  else
    let st2 := e.classes.foldl (addClassName gen e) st
    { st2 with out := { st2.out with statistics := { st2.out.statistics with
        elements_with_class := st2.out.statistics.elements_with_class + 1 } } }

/-- Name-selector extraction (de-duplicated by name value). -/
def stepName (gen : Nat → String) (e : HtmlElement) (st : ExtractState) :
    ExtractState :=
  match getTruthy e "name" with
  | some n =>
    if n ∈ st.unique_names then st
    else
      { st with
        out := { st.out with
          name_selectors := st.out.name_selectors ++
            [{ uuid := gen st.counter, selector := "[name='" ++ n ++ "']",
               tag := e.tag, typ := getAttrD e "type" "",
               text_content := strTake 200 e.text }],
          statistics := { st.out.statistics with
            elements_with_name := st.out.statistics.elements_with_name + 1 } },
        unique_names := st.unique_names ++ [n],
        counter := st.counter + 1 }
  | none => st

/-- Type-selector extraction for form elements carrying a truthy `type`
(no de-duplication in the source). -/
def stepType (gen : Nat → String) (e : HtmlElement) (st : ExtractState) :
    ExtractState :=
  if e.tag ∈ ["input", "button", "select", "textarea"] then
    match getTruthy e "type" with
    | some t =>
      { st with
        out := { st.out with type_selectors := st.out.type_selectors ++
          [{ uuid := gen st.counter,
             selector := if e.tag = "input" then "input[type='" ++ t ++ "']"
                         else e.tag ++ "[type='" ++ t ++ "']",
             tag := e.tag, name := getAttrD e "name" "",
             id := getAttrD e "id" "",
             text_content := strTake 200 e.text }] },
        counter := st.counter + 1 }
    | none => st
  else st

/-- The fixed allow-list of extra attributes. -/
def importantAttrs : List String :=
  ["data-testid", "data-hook", "data-component-type", "role", "aria-label",
   "placeholder"]

/-- Attribute-selector extraction for one allow-listed attribute
(de-duplicated by the full `[attr='value']` selector string). -/
def addImportantAttr (gen : Nat → String) (e : HtmlElement) (st : ExtractState)
    (a : String) : ExtractState :=
  match getTruthy e a with
  | some v =>
    let asel := "[" ++ a ++ "='" ++ v ++ "']"
    if asel ∈ st.unique_attributes then st
    else
      { st with
        out := { st.out with attribute_selectors := st.out.attribute_selectors ++
          [{ uuid := gen st.counter, selector := asel, tag := e.tag,
             attrName := a, value := v, text_content := strTake 200 e.text }] },
        unique_attributes := st.unique_attributes ++ [asel],
        counter := st.counter + 1 }
  | none => st

/-- The `for attr in important_attrs` loop. -/
def stepAttrs (gen : Nat → String) (e : HtmlElement) (st : ExtractState) :
    ExtractState :=
  importantAttrs.foldl (addImportantAttr gen e) st

/-- The multiple selector options generated for an input element. -/
def inputSelectorsOf (e : HtmlElement) : List String :=
  (match getTruthy e "id" with
   | some i => ["#" ++ i]
   | none => []) ++
  (match getTruthy e "name" with
   | some n => ["input[name='" ++ n ++ "']"]
   | none => []) ++
  (match getTruthy e "type" with
   | some t => ["input[type='" ++ t ++ "']"]
   | none => []) ++
  (match getTruthy e "placeholder" with
   | some p => ["input[placeholder='" ++ p ++ "']"]
   | none => [])

/-- Special handling for `input` elements (every input yields a record). -/
def stepInput (gen : Nat → String) (e : HtmlElement) (st : ExtractState) :
    ExtractState :=
  if e.tag = "input" then
    { st with
      out := { st.out with input_selectors := st.out.input_selectors ++
        [{ uuid := gen st.counter, tag := e.tag, typ := getAttrD e "type" "text",
           name := getAttrD e "name" "", id := getAttrD e "id" "",
           placeholder := getAttrD e "placeholder" "",
           selectors := inputSelectorsOf e }] },
      counter := st.counter + 1 }
  else st

/-- `element.get('type') in ['button', 'submit', 'reset']`. -/
def buttonTypeOk (e : HtmlElement) : Bool :=
  match e.attrs.lookup "type" with
  | some t => ["button", "submit", "reset"].contains t
  | none => false

/-- The selector options generated for a button element. -/
def buttonSelectorsOf (e : HtmlElement) : List String :=
  (match getTruthy e "id" with
   | some i => ["#" ++ i]
   | none => []) ++
  (match getTruthy e "name" with
   | some n => [e.tag ++ "[name='" ++ n ++ "']"]
   | none => []) ++
  (match getTruthy e "type" with
   | some t => [e.tag ++ "[type='" ++ t ++ "']"]
   | none => [])

/-- Special handling for button-like elements. -/
def stepButton (gen : Nat → String) (e : HtmlElement) (st : ExtractState) :
    ExtractState :=
  if (e.tag = "button" ∨ e.tag = "input") ∧ buttonTypeOk e = true then
    { st with
      out := { st.out with button_selectors := st.out.button_selectors ++
        [{ uuid := gen st.counter, tag := e.tag,
           typ := getAttrD e "type" "button",
           text := strTake 50 (if e.text ≠ "" then e.text
                               else getAttrD e "value" ""),
           id := getAttrD e "id" "", name := getAttrD e "name" "",
           selectors := buttonSelectorsOf e }] },
      counter := st.counter + 1 }
  else st

/-- Special handling for links (`a` elements with a truthy `href`). -/
def stepLink (gen : Nat → String) (e : HtmlElement) (st : ExtractState) :
    ExtractState :=
  if e.tag = "a" then
    match getTruthy e "href" with
    | some h =>
      { st with
        out := { st.out with link_selectors := st.out.link_selectors ++
          [{ uuid := gen st.counter,
             selector := if h.length < 100 then "a[href='" ++ h ++ "']" else "a",
             href := h, text := strTake 100 e.text, id := getAttrD e "id" "",
             cls := String.intercalate " " e.classes }] },
        counter := st.counter + 1 }
    | none => st
  else st

/-- The selector options generated for a form element. -/
def formSelectorsOf (e : HtmlElement) : List String :=
  (match getTruthy e "id" with
   | some i => ["#" ++ i]
   | none => []) ++
  (match getTruthy e "name" with
   | some n => ["form[name='" ++ n ++ "']"]
   | none => []) ++
  (match getTruthy e "action" with
   | some a => ["form[action='" ++ a ++ "']"]
   | none => [])

/-- Special handling for forms. -/
def stepForm (gen : Nat → String) (e : HtmlElement) (st : ExtractState) :
    ExtractState :=
  if e.tag = "form" then
    { st with
      out := { st.out with form_selectors := st.out.form_selectors ++
        [{ uuid := gen st.counter, tag := e.tag,
           action := getAttrD e "action" "",
           method := getAttrD e "method" "get", id := getAttrD e "id" "",
           name := getAttrD e "name" "", selectors := formSelectorsOf e }] },
      counter := st.counter + 1 }
  else st

/-- One iteration of `for element in all_elements`, in source order. -/
def processElement (gen : Nat → String) (st : ExtractState) (e : HtmlElement) :
    ExtractState :=
  stepForm gen e (stepLink gen e (stepButton gen e (stepInput gen e
    (stepAttrs gen e (stepType gen e (stepName gen e (stepClass gen e
      (stepId gen e (stepTag e st)))))))))

/-- The extraction loop over all elements. -/
def extractLoop (gen : Nat → String) (es : List HtmlElement)
    (st : ExtractState) : ExtractState :=
  es.foldl (processElement gen) st

/-- The fixed CSS pattern shapes used by `generate_combined_selectors`. -/
inductive CssPattern where
  | tagOnly (t : String)
  | tagAttrExact (t a v : String)
  | tagAttrContains (t a v : String)
  | attrExact (a v : String)
  | attrContains (a v : String)
  | classSel (c : String)
  deriving DecidableEq

/-- The attribute value a CSS attribute selector observes: for `class`,
the whitespace-joined class list; otherwise, the raw attribute. -/
def cssAttrValue (e : HtmlElement) (a : String) : Option String :=
  if a = "class" then
    if e.classes = [] then none else some (String.intercalate " " e.classes)
  else e.attrs.lookup a

/-- `soup.select` semantics for the fixed pattern shapes. -/
def matchesPattern (p : CssPattern) (e : HtmlElement) : Bool :=
  match p with
  | CssPattern.tagOnly t => e.tag == t
  | CssPattern.tagAttrExact t a v =>
    e.tag == t &&
      (match cssAttrValue e a with
       | some w => w == v
       | none => false)
  | CssPattern.tagAttrContains t a v =>
    e.tag == t &&
      (match cssAttrValue e a with
       | some w => hasSubstr w v
       | none => false)
  | CssPattern.attrExact a v =>
    match cssAttrValue e a with
    | some w => w == v
    | none => false
  | CssPattern.attrContains a v =>
    match cssAttrValue e a with
    | some w => hasSubstr w v
    | none => false
  | CssPattern.classSel c => e.classes.contains c

/-- The login-related pattern table of `generate_combined_selectors`. -/
def loginPatterns : List (String × CssPattern) :=
  [("input[type='email']", CssPattern.tagAttrExact "input" "type" "email"),
   ("input[type='password']", CssPattern.tagAttrExact "input" "type" "password"),
   ("input[name*='email']", CssPattern.tagAttrContains "input" "name" "email"),
   ("input[name*='username']", CssPattern.tagAttrContains "input" "name" "username"),
   ("input[name*='login']", CssPattern.tagAttrContains "input" "name" "login"),
   ("input[name*='password']", CssPattern.tagAttrContains "input" "name" "password"),
   ("button[type='submit']", CssPattern.tagAttrExact "button" "type" "submit"),
   ("input[type='submit']", CssPattern.tagAttrExact "input" "type" "submit"),
   ("[class*='login']", CssPattern.attrContains "class" "login"),
   ("[class*='signin']", CssPattern.attrContains "class" "signin"),
   ("[id*='login']", CssPattern.attrContains "id" "login"),
   ("[id*='signin']", CssPattern.attrContains "id" "signin")]

/-- The search-related pattern table. -/
def searchPatterns : List (String × CssPattern) :=
  [("input[type='search']", CssPattern.tagAttrExact "input" "type" "search"),
   ("input[name*='search']", CssPattern.tagAttrContains "input" "name" "search"),
   ("input[name*='query']", CssPattern.tagAttrContains "input" "name" "query"),
   ("input[name*='q']", CssPattern.tagAttrContains "input" "name" "q"),
   ("[class*='search']", CssPattern.attrContains "class" "search"),
   ("[id*='search']", CssPattern.attrContains "id" "search"),
   ("button[class*='search']", CssPattern.tagAttrContains "button" "class" "search"),
   ("input[class*='search']", CssPattern.tagAttrContains "input" "class" "search")]

/-- The navigation-related pattern table. -/
def navPatterns : List (String × CssPattern) :=
  [("nav", CssPattern.tagOnly "nav"),
   ("[role='navigation']", CssPattern.attrExact "role" "navigation"),
   (".navbar", CssPattern.classSel "navbar"),
   (".nav", CssPattern.classSel "nav"),
   (".menu", CssPattern.classSel "menu"),
   ("[class*='nav']", CssPattern.attrContains "class" "nav")]

/-- One pattern group of `generate_combined_selectors`: patterns with at
least one match yield a record with the match count and up to three
sample elements. -/
def combineGroup (desc : String) (ps : List (String × CssPattern))
    (es : List HtmlElement) : List CombinedRecord :=
  ps.filterMap (fun p =>
    let matched := es.filter (matchesPattern p.2)
    if matched.isEmpty then none
    else some { pattern := p.1, description := desc, count := matched.length,
                sample_elements := (matched.take 3).map (fun e =>
                  { tag := e.tag, attrs := e.attrs, classAttr := e.classes,
                    text := strTake 50 e.text }) })

/-- `generate_combined_selectors`: the three fixed pattern groups, a pure
function of the parsed document. -/
def generate_combined_selectors (es : List HtmlElement) : List CombinedRecord :=
  combineGroup "Login/Authentication related" loginPatterns es ++
  combineGroup "Search related" searchPatterns es ++
  combineGroup "Navigation related" navPatterns es

/-- The body of `extract_all_selectors` over an already-parsed document:
the per-element loop, then `combined_selectors`. -/
def extractFromDoc (gen : Nat → String) (es : List HtmlElement)
    (url : Option String) : SelectorsOut :=
  let fin := extractLoop gen es (initExtractState es url)
  { fin.out with combined_selectors := generate_combined_selectors es }

/-- `extract_all_selectors(html_content, url)`.  The function body has no
raise and no exception handler; the only conceivable exception source is
the external parser, which the spec declares lenient and best-effort.
`Except` represents Python exception flow: no input produces `.error`. -/
def extract_all_selectors (html : String) (gen : Nat → String)
    (url : Option String) : Except String SelectorsOut :=
  Except.ok (extractFromDoc gen (parseHTML html) url)

/-- Erase the per-record uuid of an id/class record. -/
def eraseIdClass (r : IdClassRecord) : IdClassRecord := { r with uuid := "" }

/-- Erase the uuid of a name record. -/
def eraseName (r : NameRecord) : NameRecord := { r with uuid := "" }

/-- Erase the uuid of a type record. -/
def eraseType (r : TypeRecord) : TypeRecord := { r with uuid := "" }

/-- Erase the uuid of an attribute record. -/
def eraseAttr (r : AttrRecord) : AttrRecord := { r with uuid := "" }

/-- Erase the uuid of an input record. -/
def eraseInput (r : InputRecord) : InputRecord := { r with uuid := "" }

/-- Erase the uuid of a button record. -/
def eraseButton (r : ButtonRecord) : ButtonRecord := { r with uuid := "" }

/-- Erase the uuid of a link record. -/
def eraseLink (r : LinkRecord) : LinkRecord := { r with uuid := "" }

/-- Erase the uuid of a form record. -/
def eraseForm (r : FormRecord) : FormRecord := { r with uuid := "" }

/-- The extractor output with every freshly generated identifier erased:
what remains is exactly the semantic content (kind, selector, tag, text,
type-specific fields, statistics, combined patterns). -/
def eraseOut (o : SelectorsOut) : SelectorsOut :=
  { id_selectors := o.id_selectors.map eraseIdClass,
    class_selectors := o.class_selectors.map eraseIdClass,
    name_selectors := o.name_selectors.map eraseName,
    type_selectors := o.type_selectors.map eraseType,
    attribute_selectors := o.attribute_selectors.map eraseAttr,
    input_selectors := o.input_selectors.map eraseInput,
    button_selectors := o.button_selectors.map eraseButton,
    link_selectors := o.link_selectors.map eraseLink,
    form_selectors := o.form_selectors.map eraseForm,
    combined_selectors := o.combined_selectors,
    statistics := o.statistics }

/-- A uuid supply for concrete runs. -/
def genU (n : Nat) : String := "u-" ++ toString n

/-- A `<button class="btn">` element. -/
def btnElement : HtmlElement :=
  { tag := "button", attrs := [("class", "btn")], classes := ["btn"],
    text := "Go" }

/-- Ten elements sharing `class="btn"`, the de-duplication scenario of the
spec. -/
def tenBtnElements : List HtmlElement := List.replicate 10 btnElement

/-- The first of two elements carrying the same `id="dup"`. -/
def dupA : HtmlElement := { tag := "div", attrs := [("id", "dup")], text := "first" }

/-- The second element carrying `id="dup"`. -/
def dupB : HtmlElement := { tag := "span", attrs := [("id", "dup")], text := "second" }

/-- Two elements with the same id value, the repeated-id scenario. -/
def dupIdElements : List HtmlElement := [dupA, dupB]

/-- The output of the extractor on an empty document. -/
def emptySelectorsOut : SelectorsOut := { statistics := initStats [] none }

/-- Agreement of two extraction states on everything except the generated
uuids and the uuid-supply position. -/
def ExtractAgree (s1 s2 : ExtractState) : Prop :=
  eraseOut s1.out = eraseOut s2.out ∧
  s1.unique_ids = s2.unique_ids ∧
  s1.unique_classes = s2.unique_classes ∧
  s1.unique_names = s2.unique_names ∧
  s1.unique_attributes = s2.unique_attributes

/-- The class-selector bookkeeping invariant of the extraction loop: the
emitted class selectors are exactly `"." ++ c` for the recorded distinct
class values, which never repeat. -/
def InvC (st : ExtractState) : Prop :=
  st.out.class_selectors.map (fun r => r.selector) =
    st.unique_classes.map (fun c => "." ++ c) ∧
  st.unique_classes.Nodup

/-- Well-formedness of one per-method statistics entry. -/
def statsEntryOk (p : String × MethodStats) : Prop :=
  p.2.attempts = p.2.successes + p.2.failures ∧
  1 ≤ p.2.attempts ∧
  p.2.success_rate = (p.2.successes : Rat) / (p.2.attempts : Rat)

/-- All per-method statistics entries of a state are well-formed. -/
def StatsInv (st : RecoveryState) : Prop :=
  ∀ p ∈ st.recovery_methods, statsEntryOk p

/- ==================== theorems ==================== -/

theorem updateMethodEntry_ok (k : String) (s : MethodStats) (b : Bool)
    (h : s.attempts = s.successes + s.failures) :
    statsEntryOk (k, updateMethodEntry s b) := by
  refine ⟨?_, ?_, ?_⟩ <;>
    cases b <;> simp [updateMethodEntry] <;> omega

theorem update_recovery_stats_preserves (st : RecoveryState) (m : String) (b : Bool)
    (h : StatsInv st) : StatsInv (update_recovery_stats st m b) := by
  intro p hp
  unfold update_recovery_stats at hp
  simp only [List.mem_map] at hp
  obtain ⟨q, hq, rfl⟩ := hp
  have hq' : q ∈ st.recovery_methods ∨ q = (m, MethodStats.zero) := by
    by_cases hc : (st.recovery_methods.lookup m).isSome = true
    · rw [if_pos hc] at hq; exact Or.inl hq
    · rw [if_neg hc] at hq
      rcases List.mem_append.mp hq with h1 | h1
      · exact Or.inl h1
      · exact Or.inr (List.mem_singleton.mp h1)
  have hsum : q.2.attempts = q.2.successes + q.2.failures := by
    rcases hq' with hmem | rfl
    · exact (h q hmem).1
    · rfl
  by_cases hk : q.1 = m
  · simp only [hk, if_true]
    exact updateMethodEntry_ok q.1 q.2 b hsum
  · simp only [hk, if_false]
    rcases hq' with hmem | rfl
    · exact h q hmem
    · exact absurd rfl hk

theorem attemptStrategies_preserves (exec : RecoveryStrategy → Bool)
    (l : List RecoveryStrategy) (st : RecoveryState) (h : StatsInv st) :
    StatsInv (attemptStrategies exec l st).2.1 := by
  induction l generalizing st with
  | nil => exact h
  | cons s rest ih =>
    simp only [attemptStrategies]
    by_cases he : exec s
    · simp only [he, if_true]
      exact update_recovery_stats_preserves _ _ _ (fun p hp => h p hp)
    · simp only [he, if_false]
      exact ih _ (update_recovery_stats_preserves _ _ _ (fun p hp => h p hp))

/-- C1: once `retry_count` has reached `max_retries` (default 3),
`handle_error` returns a failure result immediately: no recovery strategy
is generated or tried and the language model is never queried. -/
theorem handle_error_retry_ceiling (st : RecoveryState) (ec : ErrorContext)
    (aiResult : Option (List RecoveryStrategy))
    (custom : Option (List RecoveryStrategy))
    (exec : RecoveryStrategy → Bool)
    (h : ec.retry_count ≥ ec.max_retries) :
    (handle_error st ec aiResult custom exec).result.success = false ∧
    (handle_error st ec aiResult custom exec).result.error = some "Max retries exceeded" ∧
    (handle_error st ec aiResult custom exec).modelCalled = false ∧
    (handle_error st ec aiResult custom exec).strategiesTried = [] ∧
    ({ error_type := ec.error_type, error_message := ec.error_message,
       current_url := ec.current_url : ErrorContext }).max_retries = 3 := by
  simp [handle_error, h]

theorem handle_error_retry_ceiling_witness :
    (handle_error RecoveryState.init
      { error_type := ErrorType.TIMEOUT, error_message := "t", current_url := "u",
        retry_count := 3 } none none (fun _ => true)).result.success = false ∧
    (handle_error RecoveryState.init
      { error_type := ErrorType.TIMEOUT, error_message := "t", current_url := "u",
        retry_count := 3 } none none (fun _ => true)).modelCalled = false := by
  have h := handle_error_retry_ceiling RecoveryState.init
    { error_type := ErrorType.TIMEOUT, error_message := "t", current_url := "u",
      retry_count := 3 } none none (fun _ => true) (by decide)
  exact ⟨h.1, h.2.2.1⟩

/-- C4: for a rate-limited error with retry count `n`, the fallback table
produces the `exponential_backoff` strategy whose wait time (and estimated
time) is `min 60 (2 ^ n * 5)` seconds, and this quantity is non-decreasing
in `n`. -/
theorem rate_limited_backoff (ec : ErrorContext)
    (h : ec.error_type = ErrorType.RATE_LIMITED) :
    get_default_recovery_strategies ec =
      [{ strategy_name := "exponential_backoff",
         steps := [{ action := "wait", target := some "page",
                     timeout := some (min 60 (2 ^ ec.retry_count * 5)) },
                   { action := "retry_original", target := ec.target_selector }],
         success_probability := 0.6,
         estimated_time := min 60 (2 ^ ec.retry_count * 5) }] ∧
    ∀ n m : Nat, n ≤ m → backoffWait n ≤ backoffWait m := by
  constructor
  · simp [get_default_recovery_strategies, h, backoffWait]
  · intro n m hnm
    unfold backoffWait
    exact min_le_min (le_refl 60)
      (Nat.mul_le_mul_right 5 (Nat.pow_le_pow_right (by norm_num) hnm))

theorem rate_limited_backoff_witness :
    get_default_recovery_strategies
      { error_type := ErrorType.RATE_LIMITED, error_message := "429",
        current_url := "u", retry_count := 2 } =
      [{ strategy_name := "exponential_backoff",
         steps := [{ action := "wait", target := some "page", timeout := some 20 },
                   { action := "retry_original", target := none }],
         success_probability := 0.6, estimated_time := 20 }] ∧
    backoffWait 1 ≤ backoffWait 4 := by
  have h := rate_limited_backoff
    { error_type := ErrorType.RATE_LIMITED, error_message := "429",
      current_url := "u", retry_count := 2 } rfl
  exact ⟨h.1, h.2 1 4 (by decide)⟩

/-- C10: the per-method statistics invariant — `attempts = successes +
failures`, `attempts ≥ 1` and `success_rate = successes / attempts` for
every entry — is preserved by every `handle_error` call, whatever the
error context, model response, custom strategies and execution outcomes. -/
theorem handle_error_stats_invariant (st : RecoveryState) (ec : ErrorContext)
    (aiResult : Option (List RecoveryStrategy))
    (custom : Option (List RecoveryStrategy))
    (exec : RecoveryStrategy → Bool)
    (h : StatsInv st) :
    StatsInv (handle_error st ec aiResult custom exec).state := by
  unfold handle_error
  by_cases hc : ec.retry_count ≥ ec.max_retries
  · simp only [ge_iff_le, hc, if_true]
    exact fun p hp => h p hp
  · simp only [ge_iff_le, hc, if_false]
    have hpre : StatsInv (attemptStrategies exec
        ((((generate_recovery_strategies ec aiResult) ++ custom.getD []).mergeSort
          (fun a b => decide (b.success_probability ≤ a.success_probability))).take 3)
        { st with error_history := st.error_history ++ [ec],
                  total_errors := st.total_errors + 1 }).2.1 :=
      attemptStrategies_preserves _ _ _ (fun p hp => h p hp)
    cases hout : (attemptStrategies exec
        ((((generate_recovery_strategies ec aiResult) ++ custom.getD []).mergeSort
          (fun a b => decide (b.success_probability ≤ a.success_probability))).take 3)
        { st with error_history := st.error_history ++ [ec],
                  total_errors := st.total_errors + 1 }).1 with
    | some name =>
      simp only [hout]
      exact hpre
    | none =>
      simp only [hout]
      exact fun p hp => hpre p hp

theorem handle_error_stats_invariant_witness :
    StatsInv (handle_error RecoveryState.init
      { error_type := ErrorType.TIMEOUT, error_message := "t", current_url := "u" }
      none none (fun _ => false)).state := by
  exact handle_error_stats_invariant RecoveryState.init
    { error_type := ErrorType.TIMEOUT, error_message := "t", current_url := "u" }
    none none (fun _ => false) (by intro p hp; simp [RecoveryState.init] at hp)

theorem responseAnswer_some (r : ResolverResponse) (k v : String)
    (h : responseAnswer r = some (k, v)) :
    validKV k v = true ∧ r = ResolverResponse.jsonObj [(k, v)] := by
  cases r with
  | apiError => simp [responseAnswer] at h
  | parseFailure => simp [responseAnswer] at h
  | jsonNonObj => simp [responseAnswer] at h
  | jsonObj fields =>
    match fields with
    | [] => simp [responseAnswer] at h
    | [(a, b)] =>
      simp only [responseAnswer] at h
      by_cases hv : validKV a b = true
      · rw [if_pos hv] at h
        have hab : (a, b) = (k, v) := Option.some.inj h
        cases hab
        exact ⟨hv, rfl⟩
      · rw [if_neg hv] at h
        exact absurd h (by simp)
    | (x :: y :: rest) => simp [responseAnswer] at h

theorem resolverLoop_sound (respond : Nat → ResolverResponse) (k v : String) :
    ∀ (bs : List (List EnrichedSelector)) (n : Nat),
      resolverLoop respond bs n = some (k, v) →
      validKV k v = true ∧ ∃ i, respond i = ResolverResponse.jsonObj [(k, v)] := by
  intro bs
  induction bs with
  | nil => intro n h; simp [resolverLoop] at h
  | cons b rest ih =>
    intro n h
    unfold resolverLoop at h
    by_cases hb : (batchSelectorsList b).isEmpty = true
    · rw [if_pos hb] at h; exact ih (n + 1) h
    · rw [if_neg hb] at h
      cases hr : responseAnswer (respond n) with
      | some a =>
        rw [hr] at h
        have h2 : some a = some (k, v) := h
        have ha : a = (k, v) := Option.some.inj h2
        subst ha
        obtain ⟨hv1, hr2⟩ := responseAnswer_some _ _ _ hr
        exact ⟨hv1, n, hr2⟩
      | none =>
        rw [hr] at h
        have h2 : resolverLoop respond rest (n + 1) = some (k, v) := h
        exact ih (n + 1) h2

theorem resolverLoop_none (respond : Nat → ResolverResponse) :
    ∀ (bs : List (List EnrichedSelector)) (n : Nat),
      (∀ i, loopValidAt bs respond n i = false) →
      resolverLoop respond bs n = none := by
  intro bs
  induction bs with
  | nil => intro n _; rfl
  | cons b rest ih =>
    intro n hall
    have h0 : (!(batchSelectorsList b).isEmpty &&
        (responseAnswer (respond n)).isSome) = false := hall 0
    have hrest : ∀ i, loopValidAt rest respond (n + 1) i = false :=
      fun i => hall (i + 1)
    unfold resolverLoop
    by_cases hb : (batchSelectorsList b).isEmpty = true
    · rw [if_pos hb]; exact ih (n + 1) hrest
    · rw [if_neg hb]
      have hbf : (batchSelectorsList b).isEmpty = false := by
        cases hx : (batchSelectorsList b).isEmpty
        · rfl
        · exact absurd hx hb
      rw [hbf] at h0
      have hsome : (responseAnswer (respond n)).isSome = false := by simpa using h0
      cases hr : responseAnswer (respond n) with
      | some a => rw [hr] at hsome; simp at hsome
      | none => exact ih (n + 1) hrest

theorem resolverLoop_first (respond respond2 : Nat → ResolverResponse) :
    ∀ (bs : List (List EnrichedSelector)) (n i : Nat),
      loopValidAt bs respond n i = true →
      (∀ j, j < i → loopValidAt bs respond n j = false) →
      (∀ j, j ≤ n + i → respond2 j = respond j) →
      resolverLoop respond2 bs n = responseAnswer (respond (n + i)) := by
  intro bs
  induction bs with
  | nil =>
    intro n i hv _ _
    exact absurd hv (by simp [loopValidAt])
  | cons b rest ih =>
    intro n i hv hprior hagree
    cases i with
    | zero =>
      have hv0 : (!(batchSelectorsList b).isEmpty &&
          (responseAnswer (respond n)).isSome) = true := hv
      obtain ⟨hne, hsome⟩ := (Bool.and_eq_true _ _) ▸ hv0
      have hbf : (batchSelectorsList b).isEmpty = false := by
        cases hx : (batchSelectorsList b).isEmpty
        · rfl
        · rw [hx] at hne; simp at hne
      unfold resolverLoop
      rw [if_neg (by rw [hbf]; exact Bool.false_ne_true)]
      obtain ⟨a, ha⟩ := Option.isSome_iff_exists.mp hsome
      rw [hagree n (by omega)]
      rw [ha]
      show some a = responseAnswer (respond (n + 0))
      rw [Nat.add_zero, ha]
    | succ i2 =>
      have hprev2 : (!(batchSelectorsList b).isEmpty &&
          (responseAnswer (respond n)).isSome) = false := hprior 0 (by omega)
      have hvrest : loopValidAt rest respond (n + 1) i2 = true := hv
      have hpriorrest : ∀ j, j < i2 → loopValidAt rest respond (n + 1) j = false :=
        fun j hj => hprior (j + 1) (by omega)
      have hagreerest : ∀ j, j ≤ (n + 1) + i2 → respond2 j = respond j :=
        fun j hj => hagree j (by omega)
      have hres := ih (n + 1) i2 hvrest hpriorrest hagreerest
      have heq : (n + 1) + i2 = n + (i2 + 1) := by omega
      rw [heq] at hres
      unfold resolverLoop
      by_cases hb : (batchSelectorsList b).isEmpty = true
      · rw [if_pos hb]; exact hres
      · rw [if_neg hb]
        have hbf : (batchSelectorsList b).isEmpty = false := by
          cases hx : (batchSelectorsList b).isEmpty
          · rfl
          · exact absurd hx hb
        rw [hbf] at hprev2
        have hsomef : (responseAnswer (respond n)).isSome = false := by
          simpa using hprev2
        have hnone : responseAnswer (respond n) = none := by
          cases hr : responseAnswer (respond n)
          · rfl
          · rw [hr] at hsomef; simp at hsomef
        rw [hagree n (by omega), hnone]
        exact hres

theorem loopValidAt_isSome (respond : Nat → ResolverResponse) :
    ∀ (bs : List (List EnrichedSelector)) (n i : Nat),
      loopValidAt bs respond n i = true →
      (responseAnswer (respond (n + i))).isSome = true := by
  intro bs
  induction bs with
  | nil => intro n i h; simp [loopValidAt] at h
  | cons b rest ih =>
    intro n i h
    cases i with
    | zero =>
      have h2 : (!(batchSelectorsList b).isEmpty &&
          (responseAnswer (respond n)).isSome) = true := h
      rw [Nat.add_zero]
      exact ((Bool.and_eq_true _ _) ▸ h2).2
    | succ i2 =>
      have h2 : loopValidAt rest respond (n + 1) i2 = true := h
      have h3 := ih (n + 1) i2 h2
      rwa [show n + 1 + i2 = n + (i2 + 1) by omega] at h3

theorem loopValidAt_apiError :
    ∀ (bs : List (List EnrichedSelector)) (n i : Nat),
      loopValidAt bs (fun _ => ResolverResponse.apiError) n i = false := by
  intro bs
  induction bs with
  | nil => intro n i; rfl
  | cons b rest ih =>
    intro n i
    cases i with
    | zero =>
      show (!(batchSelectorsList b).isEmpty &&
        (responseAnswer ResolverResponse.apiError).isSome) = false
      simp [responseAnswer]
    | succ i2 => exact ih (n + 1) i2

/-- C2: a batch response of the intent resolver is accepted only when it
decodes to a JSON object with exactly one key whose key and value are
truthy and, lowercased, are neither "none" nor "null"; in particular the
object with single pair ("x", "none") is never accepted — the loop falls
through to the next batch on any invalid response. -/
theorem resolver_validity_guard (pool : List EnrichedSelector)
    (respond : Nat → ResolverResponse) (k v : String)
    (h : ask_local_ai_for_specific_selectors pool respond = some (k, v)) :
    validKV k v = true ∧
    (∃ i, respond i = ResolverResponse.jsonObj [(k, v)]) ∧
    responseAnswer (ResolverResponse.jsonObj [("x", "none")]) = none ∧
    (∀ (bt : List EnrichedSelector) (rest : List (List EnrichedSelector)) (n : Nat)
       (respond2 : Nat → ResolverResponse),
       responseAnswer (respond2 n) = none →
       resolverLoop respond2 (bt :: rest) n = resolverLoop respond2 rest (n + 1)) := by
  obtain ⟨h1, h2⟩ := resolverLoop_sound respond k v (chunksOf 25 pool) 0 h
  refine ⟨h1, h2, by decide, ?_⟩
  intro bt rest n respond2 hr
  by_cases hb : (batchSelectorsList bt).isEmpty = true
  · simp only [resolverLoop]
    rw [if_pos hb]
  · simp only [resolverLoop]
    rw [if_neg hb, hr]

theorem resolver_validity_guard_witness :
    validKV "username_selector" "#u" = true ∧
    (∃ i, sampleRespond i = ResolverResponse.jsonObj [("username_selector", "#u")]) ∧
    responseAnswer (ResolverResponse.jsonObj [("x", "none")]) = none ∧
    (∀ (bt : List EnrichedSelector) (rest : List (List EnrichedSelector)) (n : Nat)
       (respond2 : Nat → ResolverResponse),
       responseAnswer (respond2 n) = none →
       resolverLoop respond2 (bt :: rest) n = resolverLoop respond2 rest (n + 1)) :=
  resolver_validity_guard samplePool sampleRespond "username_selector" "#u" (by decide)

/-- C3: the resolver consumes batches in order and returns the answer of
the first batch that yields a valid response — the result does not depend
on responses to later batches — and when no batch yields a valid answer it
returns `none` (the empty dict) rather than a selector. -/
theorem resolver_first_valid_batch_wins (pool : List EnrichedSelector)
    (respond : Nat → ResolverResponse) :
    ((∀ i, validBatchAt pool respond i = false) →
      ask_local_ai_for_specific_selectors pool respond = none) ∧
    (∀ i (respond2 : Nat → ResolverResponse), validBatchAt pool respond i = true →
      (∀ j, j < i → validBatchAt pool respond j = false) →
      (∀ j, j ≤ i → respond2 j = respond j) →
      ask_local_ai_for_specific_selectors pool respond2 = responseAnswer (respond i) ∧
      (responseAnswer (respond i)).isSome = true) := by
  constructor
  · intro hall
    exact resolverLoop_none respond (chunksOf 25 pool) 0 hall
  · intro i respond2 hv hprior hagree
    have h1 := resolverLoop_first respond respond2 (chunksOf 25 pool) 0 i hv hprior
      (fun j hj => hagree j (by omega))
    rw [Nat.zero_add] at h1
    have h2 := loopValidAt_isSome respond (chunksOf 25 pool) 0 i hv
    rw [Nat.zero_add] at h2
    exact ⟨h1, h2⟩

theorem resolver_first_valid_batch_wins_witness :
    ask_local_ai_for_specific_selectors samplePool sampleRespond =
      some ("username_selector", "#u") ∧
    ask_local_ai_for_specific_selectors samplePool (fun _ => ResolverResponse.apiError) =
      none := by
  constructor
  · have h := (resolver_first_valid_batch_wins samplePool sampleRespond).2 1 sampleRespond
      (by decide) (by decide) (fun j _ => rfl)
    exact h.1.trans (by decide)
  · refine (resolver_first_valid_batch_wins samplePool
      (fun _ => ResolverResponse.apiError)).1 ?_
    intro i
    exact loopValidAt_apiError (chunksOf 25 samplePool) 0 i

theorem lookup_mem {β : Type} (k : String) (v : β) :
    ∀ l : List (String × β), l.lookup k = some v → (k, v) ∈ l
  | [], h => by simp [List.lookup] at h
  | (a, b) :: rest, h => by
    by_cases hk : (k == a) = true
    · have hka : k = a := by simpa using hk
      have hb : b = v := by
        simp [List.lookup, hk] at h
        exact h
      subst hka; subst hb
      exact List.mem_cons_self _ _
    · have h2 : rest.lookup k = some v := by
        simpa [List.lookup, hk] using h
      exact List.mem_cons_of_mem _ (lookup_mem k v rest h2)

theorem addLookupList_mem (ty : String) (p : String × String × RawItem) :
    ∀ (items : List RawItem) (d : List (String × String × RawItem)),
      p ∈ addLookupList ty items d →
      p ∈ d ∨ ∃ it ∈ items, it.uuid = some p.1
  | [], d, h => Or.inl h
  | it :: rest, d, h => by
    unfold addLookupList at h
    cases hu : it.uuid with
    | some u =>
      rw [hu] at h
      rcases addLookupList_mem ty p rest ((u, ty, it) :: d) h with h2 | ⟨it2, hit2, hu2⟩
      · rcases List.mem_cons.mp h2 with h3 | h3
        · subst h3
          exact Or.inr ⟨it, List.mem_cons_self _ _, hu⟩
        · exact Or.inl h3
      · exact Or.inr ⟨it2, List.mem_cons_of_mem _ hit2, hu2⟩
    | none =>
      rw [hu] at h
      rcases addLookupList_mem ty p rest d h with h2 | ⟨it2, hit2, hu2⟩
      · exact Or.inl h2
      · exact Or.inr ⟨it2, List.mem_cons_of_mem _ hit2, hu2⟩

theorem uuid_lookup_mem (ex : RawSelectors) (p : String × String × RawItem)
    (h : p ∈ uuid_lookup ex) : p.1 ∈ extractedUuids ex := by
  unfold uuid_lookup at h
  have hmem : ∀ (l : List RawItem), (∀ x ∈ l, x ∈ ex.allItems) →
      (∃ it ∈ l, it.uuid = some p.1) → p.1 ∈ extractedUuids ex := by
    intro l hsub hex
    obtain ⟨it, hit, hu⟩ := hex
    exact List.mem_filterMap.mpr ⟨it, hsub it hit, hu⟩
  have hsub : ∀ (s : List RawItem),
      (s = ex.id_selectors ∨ s = ex.class_selectors ∨ s = ex.name_selectors ∨
       s = ex.type_selectors ∨ s = ex.attribute_selectors ∨ s = ex.input_selectors ∨
       s = ex.button_selectors ∨ s = ex.link_selectors ∨ s = ex.form_selectors) →
      ∀ x ∈ s, x ∈ ex.allItems := by
    intro s hs x hx
    simp only [RawSelectors.allItems, List.mem_append]
    rcases hs with rfl | rfl | rfl | rfl | rfl | rfl | rfl | rfl | rfl <;> tauto
  rcases addLookupList_mem _ p _ _ h with h | hf
  rcases addLookupList_mem _ p _ _ h with h | hf
  rcases addLookupList_mem _ p _ _ h with h | hf
  rcases addLookupList_mem _ p _ _ h with h | hf
  rcases addLookupList_mem _ p _ _ h with h | hf
  rcases addLookupList_mem _ p _ _ h with h | hf
  rcases addLookupList_mem _ p _ _ h with h | hf
  rcases addLookupList_mem _ p _ _ h with h | hf
  rcases addLookupList_mem _ p _ _ h with h | hf
  · exact absurd h (List.not_mem_nil p)
  · exact hmem _ (hsub _ (by tauto)) hf
  · exact hmem _ (hsub _ (by tauto)) hf
  · exact hmem _ (hsub _ (by tauto)) hf
  · exact hmem _ (hsub _ (by tauto)) hf
  · exact hmem _ (hsub _ (by tauto)) hf
  · exact hmem _ (hsub _ (by tauto)) hf
  · exact hmem _ (hsub _ (by tauto)) hf
  · exact hmem _ (hsub _ (by tauto)) hf
  · exact hmem _ (hsub _ (by tauto)) hf

theorem mkEnriched_uuid (u : String) (conf : Rat) (ty : String) (it : RawItem) :
    (mkEnriched u conf ty it).uuid = u := by
  unfold mkEnriched
  split_ifs <;> rfl

theorem addToGroup_mem (x e : EnrichedSelector) (cat : String) :
    ∀ (m : List (String × List EnrichedSelector)) (c : String)
      (l : List EnrichedSelector),
      (c, l) ∈ addToGroup m cat x → e ∈ l →
      (∃ l0, (c, l0) ∈ m ∧ e ∈ l0) ∨ e = x := by
  intro m
  induction m with
  | nil =>
    intro c l hm he
    simp only [addToGroup, List.mem_singleton] at hm
    injection hm with hc1 hl1
    subst hc1; subst hl1
    rcases List.mem_singleton.mp he with rfl
    exact Or.inr rfl
  | cons p rest ih =>
    intro c l hm he
    obtain ⟨c0, l0⟩ := p
    unfold addToGroup at hm
    by_cases hc : c0 = cat
    · rw [if_pos hc] at hm
      rcases List.mem_cons.mp hm with h1 | h1
      · injection h1 with hc1 hl1
        subst hc1; subst hl1
        rcases List.mem_append.mp he with h2 | h2
        · exact Or.inl ⟨l0, List.mem_cons_self _ _, h2⟩
        · exact Or.inr (List.mem_singleton.mp h2)
      · exact Or.inl ⟨l, List.mem_cons_of_mem _ h1, he⟩
    · rw [if_neg hc] at hm
      rcases List.mem_cons.mp hm with h1 | h1
      · injection h1 with hc1 hl1
        subst hc1; subst hl1
        exact Or.inl ⟨l, List.mem_cons_self _ _, he⟩
      · rcases ih c l h1 he with ⟨l2, hl2, he2⟩ | h2
        · exact Or.inl ⟨l2, List.mem_cons_of_mem _ hl2, he2⟩
        · exact Or.inr h2

theorem groupStep_inv (extracted : RawSelectors) (ci : CategorizedItem)
    (acc : List (String × List EnrichedSelector))
    (hinv : ∀ c l e, (c, l) ∈ acc → e ∈ l → e.uuid ∈ extractedUuids extracted) :
    ∀ c l e, (c, l) ∈ groupStep extracted acc ci → e ∈ l →
      e.uuid ∈ extractedUuids extracted := by
  intro c l e hm he
  unfold groupStep at hm
  cases hu : ci.uuid with
  | none => rw [hu] at hm; exact hinv c l e hm he
  | some u =>
    rw [hu] at hm
    have hm2 : (c, l) ∈ (match (uuid_lookup extracted).lookup u with
        | some (ty, it) => addToGroup acc (ci.category.getD "uncategorized")
            (mkEnriched u (ci.confidence.getD 0) ty it)
        | none => acc) := hm
    cases hl : (uuid_lookup extracted).lookup u with
    | none =>
      rw [hl] at hm2
      exact hinv c l e hm2 he
    | some tyit =>
      obtain ⟨ty, it⟩ := tyit
      rw [hl] at hm2
      have hm3 : (c, l) ∈ addToGroup acc (ci.category.getD "uncategorized")
          (mkEnriched u (ci.confidence.getD 0) ty it) := hm2
      rcases addToGroup_mem (mkEnriched u (ci.confidence.getD 0) ty it) e
          (ci.category.getD "uncategorized") acc c l hm3 he with ⟨l2, hl2, he2⟩ | h2
      · exact hinv c l2 e hl2 he2
      · rw [h2, mkEnriched_uuid]
        exact uuid_lookup_mem extracted (u, ty, it) (lookup_mem u (ty, it) _ hl)

/-- C5: the grouper never fabricates a join — every enriched candidate in
every category list of `group_selectors_by_category`'s output carries a
uuid present in the extracted candidates; assignments whose uuid has no
matching candidate produce no output entry. -/
theorem group_no_fabricated_joins (extracted : RawSelectors)
    (categorized : List CategorizedItem) (cat : String)
    (l : List EnrichedSelector) (e : EnrichedSelector)
    (hl : (cat, l) ∈ group_selectors_by_category extracted categorized)
    (he : e ∈ l) : e.uuid ∈ extractedUuids extracted := by
  unfold group_selectors_by_category at hl
  have main : ∀ (cats : List CategorizedItem)
      (acc : List (String × List EnrichedSelector)),
      (∀ c l2 e2, (c, l2) ∈ acc → e2 ∈ l2 → e2.uuid ∈ extractedUuids extracted) →
      ∀ c l2 e2, (c, l2) ∈ cats.foldl (groupStep extracted) acc → e2 ∈ l2 →
        e2.uuid ∈ extractedUuids extracted := by
    intro cats
    induction cats with
    | nil => intro acc hinv; exact hinv
    | cons ci rest ih =>
      intro acc hinv
      simp only [List.foldl_cons]
      exact ih (groupStep extracted acc ci) (groupStep_inv extracted ci acc hinv)
  exact main categorized [] (fun c l2 e2 hm _ => absurd hm (List.not_mem_nil _)) cat l e hl he

theorem group_no_fabricated_joins_witness :
    sampleEnriched.uuid ∈ extractedUuids sampleRawSelectors :=
  group_no_fabricated_joins sampleRawSelectors sampleCategorized
    "authentication_account" [sampleEnriched] sampleEnriched
    (by
      have heq : group_selectors_by_category sampleRawSelectors sampleCategorized =
          [("authentication_account", [sampleEnriched])] := rfl
      rw [heq]
      exact List.mem_cons_self _ _)
    (List.mem_cons_self _ _)

theorem catLoop_spec (respond : Nat → CatBatchResponse) :
    ∀ (bs : List (List PreparedSelector)) (n : Nat),
      catLoop respond bs n =
        (catListFrom respond n bs.length, catCountFrom respond n bs.length) := by
  intro bs
  induction bs with
  | nil => intro n; rfl
  | cons b rest ih =>
    intro n
    cases hr : respond n <;>
      simp [catLoop, catListFrom, catCountFrom, isFailedBatch, hr, ih (n + 1)] <;>
      omega

theorem catLoopLocal_spec (respond : Nat → CatBatchResponse) :
    ∀ (bs : List (List PreparedSelector)) (n : Nat),
      catLoopLocal respond bs n =
        (catListFrom respond n bs.length, catCountLocalFrom respond n bs.length) := by
  intro bs
  induction bs with
  | nil => intro n; rfl
  | cons b rest ih =>
    intro n
    cases hr : respond n <;>
      simp [catLoopLocal, catListFrom, catCountLocalFrom, isListResponse, hr, ih (n + 1)] <;>
      omega

theorem catCountFrom_zero_iff (respond : Nat → CatBatchResponse) :
    ∀ (len n : Nat),
      catCountFrom respond n len = 0 ↔
        ∀ k, k < len → isFailedBatch (respond (n + k)) = true := by
  intro len
  induction len with
  | zero => intro n; simp [catCountFrom]
  | succ len ih =>
    intro n
    constructor
    · intro h
      have hsplit : isFailedBatch (respond n) = true ∧
          catCountFrom respond (n + 1) len = 0 := by
        simp only [catCountFrom] at h
        by_cases hf : isFailedBatch (respond n) = true
        · rw [hf] at h
          simp at h
          exact ⟨hf, h⟩
        · have hff : isFailedBatch (respond n) = false := by
            cases hx : isFailedBatch (respond n)
            · rfl
            · exact absurd hx hf
          rw [hff] at h
          simp at h
      intro k hk
      cases k with
      | zero => rw [Nat.add_zero]; exact hsplit.1
      | succ k2 =>
        have h2 := (ih (n + 1)).mp hsplit.2 k2 (by omega)
        rwa [show n + 1 + k2 = n + (k2 + 1) by omega] at h2
    · intro hall
      simp only [catCountFrom]
      have h0 : isFailedBatch (respond n) = true := by
        have := hall 0 (by omega)
        rwa [Nat.add_zero] at this
      rw [h0, if_pos rfl, Nat.zero_add]
      refine (ih (n + 1)).mpr ?_
      intro k hk
      have := hall (k + 1) (by omega)
      rwa [show n + (k + 1) = n + 1 + k by omega] at this

theorem catCountLocalFrom_zero_iff (respond : Nat → CatBatchResponse) :
    ∀ (len n : Nat),
      catCountLocalFrom respond n len = 0 ↔
        ∀ k, k < len → isListResponse (respond (n + k)) = false := by
  intro len
  induction len with
  | zero => intro n; simp [catCountLocalFrom]
  | succ len ih =>
    intro n
    constructor
    · intro h
      have hsplit : isListResponse (respond n) = false ∧
          catCountLocalFrom respond (n + 1) len = 0 := by
        simp only [catCountLocalFrom] at h
        by_cases hf : isListResponse (respond n) = true
        · rw [hf] at h
          simp at h
        · have hff : isListResponse (respond n) = false := by
            cases hx : isListResponse (respond n)
            · rfl
            · exact absurd hx hf
          rw [hff] at h
          simp at h
          exact ⟨hff, h⟩
      intro k hk
      cases k with
      | zero => rw [Nat.add_zero]; exact hsplit.1
      | succ k2 =>
        have h2 := (ih (n + 1)).mp hsplit.2 k2 (by omega)
        rwa [show n + 1 + k2 = n + (k2 + 1) by omega] at h2
    · intro hall
      simp only [catCountLocalFrom]
      have h0 : isListResponse (respond n) = false := by
        have := hall 0 (by omega)
        rwa [Nat.add_zero] at this
      rw [h0, if_neg (by simp), Nat.zero_add]
      refine (ih (n + 1)).mpr ?_
      intro k hk
      have := hall (k + 1) (by omega)
      rwa [show n + (k + 1) = n + 1 + k by omega] at this

/-- C6: in both classifier entry points, a per-batch parse or API error
skips only that batch — the result is the concatenation, in batch order,
of the assignments of every successfully decoded batch, whatever the other
batches did — and the deterministic keyword fallback is returned exactly
when the input is non-empty and no batch succeeded. -/
theorem classifier_per_batch_isolation (sel : RawSelectors)
    (respond : Nat → CatBatchResponse) :
    (prepare_all_selectors sel ≠ [] →
      (∀ i, i < (chunksOf 40 (prepare_all_selectors sel)).length →
        isFailedBatch (respond i) = true) →
      categorize_selectors_with_ai sel respond = create_fallback_categorization sel) ∧
    ((∃ i, i < (chunksOf 40 (prepare_all_selectors sel)).length ∧
        isFailedBatch (respond i) = false) →
      categorize_selectors_with_ai sel respond =
        catListFrom respond 0 (chunksOf 40 (prepare_all_selectors sel)).length) ∧
    (prepare_all_selectors sel ≠ [] →
      (∀ i, i < (chunksOf 20 (prepare_all_selectors sel)).length →
        isListResponse (respond i) = false) →
      local_ai_selector_categorizer sel respond = create_fallback_categorization sel) ∧
    ((∃ i, i < (chunksOf 20 (prepare_all_selectors sel)).length ∧
        isListResponse (respond i) = true) →
      local_ai_selector_categorizer sel respond =
        catListFrom respond 0 (chunksOf 20 (prepare_all_selectors sel)).length) := by
  have hlen0 : prepare_all_selectors sel ≠ [] →
      ¬(prepare_all_selectors sel).length = 0 := by
    intro hne h0
    exact hne (List.length_eq_zero.mp h0)
  refine ⟨?_, ?_, ?_, ?_⟩
  · intro hne hfail
    simp only [categorize_selectors_with_ai]
    rw [if_neg (hlen0 hne), catLoop_spec]
    rw [if_pos]
    exact (catCountFrom_zero_iff respond _ 0).mpr
      (fun k hk => by rw [Nat.zero_add]; exact hfail k hk)
  · intro hex
    obtain ⟨i, hi, hfi⟩ := hex
    have hne : prepare_all_selectors sel ≠ [] := by
      intro h0
      rw [h0] at hi
      exact absurd hi (by simp [chunksOf, chunksOfAux])
    simp only [categorize_selectors_with_ai]
    rw [if_neg (hlen0 hne), catLoop_spec]
    rw [if_neg]
    intro hz
    have := (catCountFrom_zero_iff respond _ 0).mp hz i hi
    rw [Nat.zero_add] at this
    rw [this] at hfi
    exact absurd hfi (by simp)
  · intro hne hfail
    simp only [local_ai_selector_categorizer]
    rw [if_neg (hlen0 hne), catLoopLocal_spec]
    rw [if_pos]
    exact (catCountLocalFrom_zero_iff respond _ 0).mpr
      (fun k hk => by rw [Nat.zero_add]; exact hfail k hk)
  · intro hex
    obtain ⟨i, hi, hfi⟩ := hex
    have hne : prepare_all_selectors sel ≠ [] := by
      intro h0
      rw [h0] at hi
      exact absurd hi (by simp [chunksOf, chunksOfAux])
    simp only [local_ai_selector_categorizer]
    rw [if_neg (hlen0 hne), catLoopLocal_spec]
    rw [if_neg]
    intro hz
    have := (catCountLocalFrom_zero_iff respond _ 0).mp hz i hi
    rw [Nat.zero_add] at this
    rw [this] at hfi
    exact absurd hfi (by simp)

theorem classifier_per_batch_isolation_witness :
    categorize_selectors_with_ai sampleClassSelectors
      (fun _ => CatBatchResponse.apiError) =
      create_fallback_categorization sampleClassSelectors ∧
    local_ai_selector_categorizer sampleClassSelectors sampleListRespond =
      catListFrom sampleListRespond 0
        (chunksOf 20 (prepare_all_selectors sampleClassSelectors)).length := by
  constructor
  · exact (classifier_per_batch_isolation sampleClassSelectors
      (fun _ => CatBatchResponse.apiError)).1 (by decide) (fun i _ => rfl)
  · exact (classifier_per_batch_isolation sampleClassSelectors
      sampleListRespond).2.2.2 ⟨0, by decide, rfl⟩

/-- C8 (counterexample): on the empty string the extractor returns
normally with the empty candidate structure — it does not raise, contrary
to the claim that empty input is an error case. -/
theorem extractor_empty_input_returns :
    extract_all_selectors "" genU none = Except.ok emptySelectorsOut := rfl

/-- C8 (amended): extraction completes without raising on every string
input — the empty string and malformed fragments included — and returns a
(possibly empty) candidate structure. -/
theorem extractor_total_on_strings (html : String) (gen : Nat → String)
    (url : Option String) :
    ∃ out, extract_all_selectors html gen url = Except.ok out :=
  ⟨extractFromDoc gen (parseHTML html) url, rfl⟩

theorem eraseOut_parts (o1 o2 : SelectorsOut) (h : eraseOut o1 = eraseOut o2) :
    o1.id_selectors.map eraseIdClass = o2.id_selectors.map eraseIdClass ∧
    o1.class_selectors.map eraseIdClass = o2.class_selectors.map eraseIdClass ∧
    o1.name_selectors.map eraseName = o2.name_selectors.map eraseName ∧
    o1.type_selectors.map eraseType = o2.type_selectors.map eraseType ∧
    o1.attribute_selectors.map eraseAttr = o2.attribute_selectors.map eraseAttr ∧
    o1.input_selectors.map eraseInput = o2.input_selectors.map eraseInput ∧
    o1.button_selectors.map eraseButton = o2.button_selectors.map eraseButton ∧
    o1.link_selectors.map eraseLink = o2.link_selectors.map eraseLink ∧
    o1.form_selectors.map eraseForm = o2.form_selectors.map eraseForm ∧
    o1.combined_selectors = o2.combined_selectors ∧
    o1.statistics = o2.statistics :=
  ⟨congrArg SelectorsOut.id_selectors h, congrArg SelectorsOut.class_selectors h,
   congrArg SelectorsOut.name_selectors h, congrArg SelectorsOut.type_selectors h,
   congrArg SelectorsOut.attribute_selectors h, congrArg SelectorsOut.input_selectors h,
   congrArg SelectorsOut.button_selectors h, congrArg SelectorsOut.link_selectors h,
   congrArg SelectorsOut.form_selectors h,
   (show (eraseOut o1).combined_selectors = (eraseOut o2).combined_selectors from
     congrArg SelectorsOut.combined_selectors h),
   (show (eraseOut o1).statistics = (eraseOut o2).statistics from
     congrArg SelectorsOut.statistics h)⟩

theorem eraseOut_build (o1 o2 : SelectorsOut)
    (h1 : o1.id_selectors.map eraseIdClass = o2.id_selectors.map eraseIdClass)
    (h2 : o1.class_selectors.map eraseIdClass = o2.class_selectors.map eraseIdClass)
    (h3 : o1.name_selectors.map eraseName = o2.name_selectors.map eraseName)
    (h4 : o1.type_selectors.map eraseType = o2.type_selectors.map eraseType)
    (h5 : o1.attribute_selectors.map eraseAttr = o2.attribute_selectors.map eraseAttr)
    (h6 : o1.input_selectors.map eraseInput = o2.input_selectors.map eraseInput)
    (h7 : o1.button_selectors.map eraseButton = o2.button_selectors.map eraseButton)
    (h8 : o1.link_selectors.map eraseLink = o2.link_selectors.map eraseLink)
    (h9 : o1.form_selectors.map eraseForm = o2.form_selectors.map eraseForm)
    (h10 : o1.combined_selectors = o2.combined_selectors)
    (h11 : o1.statistics = o2.statistics) :
    eraseOut o1 = eraseOut o2 := by
  simp only [eraseOut]
  rw [h1, h2, h3, h4, h5, h6, h7, h8, h9, h10, h11]

theorem stepTag_agree (e : HtmlElement) (s1 s2 : ExtractState)
    (h : ExtractAgree s1 s2) : ExtractAgree (stepTag e s1) (stepTag e s2) := by
  obtain ⟨ho, hi, hc, hn, ha⟩ := h
  obtain ⟨h1, h2, h3, h4, h5, h6, h7, h8, h9, h10, h11⟩ := eraseOut_parts _ _ ho
  unfold stepTag
  rw [h11]
  by_cases hmem : e.tag ∈ s2.out.statistics.unique_tags
  · rw [if_pos hmem, if_pos hmem]
    exact ⟨ho, hi, hc, hn, ha⟩
  · rw [if_neg hmem, if_neg hmem]
    exact ⟨eraseOut_build _ _ h1 h2 h3 h4 h5 h6 h7 h8 h9 h10 rfl, hi, hc, hn, ha⟩

theorem stepId_agree (gen1 gen2 : Nat → String) (e : HtmlElement)
    (s1 s2 : ExtractState) (h : ExtractAgree s1 s2) :
    ExtractAgree (stepId gen1 e s1) (stepId gen2 e s2) := by
  obtain ⟨ho, hi, hc, hn, ha⟩ := h
  obtain ⟨h1, h2, h3, h4, h5, h6, h7, h8, h9, h10, h11⟩ := eraseOut_parts _ _ ho
  unfold stepId
  cases hg : getTruthy e "id" with
  | none => exact ⟨ho, hi, hc, hn, ha⟩
  | some i =>
    dsimp only
    rw [hi]
    by_cases hmem : i ∈ s2.unique_ids
    · rw [if_pos hmem, if_pos hmem]
      exact ⟨ho, hi, hc, hn, ha⟩
    · rw [if_neg hmem, if_neg hmem]
      refine ⟨?_, rfl, hc, hn, ha⟩
      refine eraseOut_build _ _ ?_ h2 h3 h4 h5 h6 h7 h8 h9 h10 ?_
      · simp [List.map_append, eraseIdClass, h1]
      · rw [h11]

theorem addClassName_agree (gen1 gen2 : Nat → String) (e : HtmlElement)
    (c : String) (s1 s2 : ExtractState) (h : ExtractAgree s1 s2) :
    ExtractAgree (addClassName gen1 e s1 c) (addClassName gen2 e s2 c) := by
  obtain ⟨ho, hi, hc, hn, ha⟩ := h
  obtain ⟨h1, h2, h3, h4, h5, h6, h7, h8, h9, h10, h11⟩ := eraseOut_parts _ _ ho
  unfold addClassName
  rw [hc]
  by_cases hmem : c ∈ s2.unique_classes
  · rw [if_pos hmem, if_pos hmem]
    exact ⟨ho, hi, hc, hn, ha⟩
  · rw [if_neg hmem, if_neg hmem]
    refine ⟨?_, hi, rfl, hn, ha⟩
    refine eraseOut_build _ _ h1 ?_ h3 h4 h5 h6 h7 h8 h9 h10 h11
    simp [List.map_append, eraseIdClass, h2]

theorem foldClassNames_agree (gen1 gen2 : Nat → String) (e : HtmlElement) :
    ∀ (cs : List String) (s1 s2 : ExtractState), ExtractAgree s1 s2 →
      ExtractAgree (cs.foldl (addClassName gen1 e) s1)
        (cs.foldl (addClassName gen2 e) s2) := by
  intro cs
  induction cs with
  | nil => intro s1 s2 h; exact h
  | cons c rest ih =>
    intro s1 s2 h
    simp only [List.foldl_cons]
    exact ih _ _ (addClassName_agree gen1 gen2 e c s1 s2 h)

theorem stepClass_agree (gen1 gen2 : Nat → String) (e : HtmlElement)
    (s1 s2 : ExtractState) (h : ExtractAgree s1 s2) :
    ExtractAgree (stepClass gen1 e s1) (stepClass gen2 e s2) := by
  unfold stepClass
  by_cases hcl : e.classes = []
  · rw [if_pos hcl, if_pos hcl]
    exact h
  · rw [if_neg hcl, if_neg hcl]
    dsimp only
    obtain ⟨ho2, hi2, hc2, hn2, ha2⟩ :=
      foldClassNames_agree gen1 gen2 e e.classes s1 s2 h
    obtain ⟨g1, g2, g3, g4, g5, g6, g7, g8, g9, g10, g11⟩ := eraseOut_parts _ _ ho2
    refine ⟨?_, hi2, hc2, hn2, ha2⟩
    refine eraseOut_build _ _ g1 g2 g3 g4 g5 g6 g7 g8 g9 g10 ?_
    rw [g11]

theorem stepName_agree (gen1 gen2 : Nat → String) (e : HtmlElement)
    (s1 s2 : ExtractState) (h : ExtractAgree s1 s2) :
    ExtractAgree (stepName gen1 e s1) (stepName gen2 e s2) := by
  obtain ⟨ho, hi, hc, hn, ha⟩ := h
  obtain ⟨h1, h2, h3, h4, h5, h6, h7, h8, h9, h10, h11⟩ := eraseOut_parts _ _ ho
  unfold stepName
  cases hg : getTruthy e "name" with
  | none => exact ⟨ho, hi, hc, hn, ha⟩
  | some n =>
    dsimp only
    rw [hn]
    by_cases hmem : n ∈ s2.unique_names
    · rw [if_pos hmem, if_pos hmem]
      exact ⟨ho, hi, hc, hn, ha⟩
    · rw [if_neg hmem, if_neg hmem]
      refine ⟨?_, hi, hc, rfl, ha⟩
      refine eraseOut_build _ _ h1 h2 ?_ h4 h5 h6 h7 h8 h9 h10 ?_
      · simp [List.map_append, eraseName, h3]
      · rw [h11]

theorem stepType_agree (gen1 gen2 : Nat → String) (e : HtmlElement)
    (s1 s2 : ExtractState) (h : ExtractAgree s1 s2) :
    ExtractAgree (stepType gen1 e s1) (stepType gen2 e s2) := by
  obtain ⟨ho, hi, hc, hn, ha⟩ := h
  obtain ⟨h1, h2, h3, h4, h5, h6, h7, h8, h9, h10, h11⟩ := eraseOut_parts _ _ ho
  unfold stepType
  by_cases htag : e.tag ∈ ["input", "button", "select", "textarea"]
  · rw [if_pos htag, if_pos htag]
    cases hg : getTruthy e "type" with
    | none => exact ⟨ho, hi, hc, hn, ha⟩
    | some t =>
      dsimp only
      refine ⟨?_, hi, hc, hn, ha⟩
      refine eraseOut_build _ _ h1 h2 h3 ?_ h5 h6 h7 h8 h9 h10 h11
      simp [List.map_append, eraseType, h4]
  · rw [if_neg htag, if_neg htag]
    exact ⟨ho, hi, hc, hn, ha⟩

theorem addImportantAttr_agree (gen1 gen2 : Nat → String) (e : HtmlElement)
    (a : String) (s1 s2 : ExtractState) (h : ExtractAgree s1 s2) :
    ExtractAgree (addImportantAttr gen1 e s1 a) (addImportantAttr gen2 e s2 a) := by
  obtain ⟨ho, hi, hc, hn, ha⟩ := h
  obtain ⟨h1, h2, h3, h4, h5, h6, h7, h8, h9, h10, h11⟩ := eraseOut_parts _ _ ho
  unfold addImportantAttr
  cases hg : getTruthy e a with
  | none => exact ⟨ho, hi, hc, hn, ha⟩
  | some v =>
    dsimp only
    rw [ha]
    by_cases hmem : "[" ++ a ++ "='" ++ v ++ "']" ∈ s2.unique_attributes
    · rw [if_pos hmem, if_pos hmem]
      exact ⟨ho, hi, hc, hn, ha⟩
    · rw [if_neg hmem, if_neg hmem]
      refine ⟨?_, hi, hc, hn, rfl⟩
      refine eraseOut_build _ _ h1 h2 h3 h4 ?_ h6 h7 h8 h9 h10 h11
      simp [List.map_append, eraseAttr, h5]

theorem stepAttrs_agree_aux (gen1 gen2 : Nat → String) (e : HtmlElement) :
    ∀ (l : List String) (s1 s2 : ExtractState), ExtractAgree s1 s2 →
      ExtractAgree (l.foldl (addImportantAttr gen1 e) s1)
        (l.foldl (addImportantAttr gen2 e) s2) := by
  intro l
  induction l with
  | nil => intro s1 s2 h; exact h
  | cons a rest ih =>
    intro s1 s2 h
    simp only [List.foldl_cons]
    exact ih _ _ (addImportantAttr_agree gen1 gen2 e a s1 s2 h)

theorem stepAttrs_agree (gen1 gen2 : Nat → String) (e : HtmlElement)
    (s1 s2 : ExtractState) (h : ExtractAgree s1 s2) :
    ExtractAgree (stepAttrs gen1 e s1) (stepAttrs gen2 e s2) :=
  stepAttrs_agree_aux gen1 gen2 e importantAttrs s1 s2 h

theorem stepInput_agree (gen1 gen2 : Nat → String) (e : HtmlElement)
    (s1 s2 : ExtractState) (h : ExtractAgree s1 s2) :
    ExtractAgree (stepInput gen1 e s1) (stepInput gen2 e s2) := by
  obtain ⟨ho, hi, hc, hn, ha⟩ := h
  obtain ⟨h1, h2, h3, h4, h5, h6, h7, h8, h9, h10, h11⟩ := eraseOut_parts _ _ ho
  unfold stepInput
  by_cases htag : e.tag = "input"
  · rw [if_pos htag, if_pos htag]
    refine ⟨?_, hi, hc, hn, ha⟩
    refine eraseOut_build _ _ h1 h2 h3 h4 h5 ?_ h7 h8 h9 h10 h11
    simp [List.map_append, eraseInput, h6]
  · rw [if_neg htag, if_neg htag]
    exact ⟨ho, hi, hc, hn, ha⟩

theorem stepButton_agree (gen1 gen2 : Nat → String) (e : HtmlElement)
    (s1 s2 : ExtractState) (h : ExtractAgree s1 s2) :
    ExtractAgree (stepButton gen1 e s1) (stepButton gen2 e s2) := by
  obtain ⟨ho, hi, hc, hn, ha⟩ := h
  obtain ⟨h1, h2, h3, h4, h5, h6, h7, h8, h9, h10, h11⟩ := eraseOut_parts _ _ ho
  unfold stepButton
  by_cases hcond : (e.tag = "button" ∨ e.tag = "input") ∧ buttonTypeOk e = true
  · rw [if_pos hcond, if_pos hcond]
    refine ⟨?_, hi, hc, hn, ha⟩
    refine eraseOut_build _ _ h1 h2 h3 h4 h5 h6 ?_ h8 h9 h10 h11
    simp [List.map_append, eraseButton, h7]
  · rw [if_neg hcond, if_neg hcond]
    exact ⟨ho, hi, hc, hn, ha⟩

theorem stepLink_agree (gen1 gen2 : Nat → String) (e : HtmlElement)
    (s1 s2 : ExtractState) (h : ExtractAgree s1 s2) :
    ExtractAgree (stepLink gen1 e s1) (stepLink gen2 e s2) := by
  obtain ⟨ho, hi, hc, hn, ha⟩ := h
  obtain ⟨h1, h2, h3, h4, h5, h6, h7, h8, h9, h10, h11⟩ := eraseOut_parts _ _ ho
  unfold stepLink
  by_cases htag : e.tag = "a"
  · rw [if_pos htag, if_pos htag]
    cases hg : getTruthy e "href" with
    | none => exact ⟨ho, hi, hc, hn, ha⟩
    | some hv =>
      dsimp only
      refine ⟨?_, hi, hc, hn, ha⟩
      refine eraseOut_build _ _ h1 h2 h3 h4 h5 h6 h7 ?_ h9 h10 h11
      simp [List.map_append, eraseLink, h8]
  · rw [if_neg htag, if_neg htag]
    exact ⟨ho, hi, hc, hn, ha⟩

theorem stepForm_agree (gen1 gen2 : Nat → String) (e : HtmlElement)
    (s1 s2 : ExtractState) (h : ExtractAgree s1 s2) :
    ExtractAgree (stepForm gen1 e s1) (stepForm gen2 e s2) := by
  obtain ⟨ho, hi, hc, hn, ha⟩ := h
  obtain ⟨h1, h2, h3, h4, h5, h6, h7, h8, h9, h10, h11⟩ := eraseOut_parts _ _ ho
  unfold stepForm
  by_cases htag : e.tag = "form"
  · rw [if_pos htag, if_pos htag]
    refine ⟨?_, hi, hc, hn, ha⟩
    refine eraseOut_build _ _ h1 h2 h3 h4 h5 h6 h7 h8 ?_ h10 h11
    simp [List.map_append, eraseForm, h9]
  · rw [if_neg htag, if_neg htag]
    exact ⟨ho, hi, hc, hn, ha⟩

theorem processElement_agree (gen1 gen2 : Nat → String) (e : HtmlElement)
    (s1 s2 : ExtractState) (h : ExtractAgree s1 s2) :
    ExtractAgree (processElement gen1 s1 e) (processElement gen2 s2 e) := by
  unfold processElement
  exact stepForm_agree _ _ _ _ _ (stepLink_agree _ _ _ _ _ (stepButton_agree _ _ _ _ _
    (stepInput_agree _ _ _ _ _ (stepAttrs_agree _ _ _ _ _ (stepType_agree _ _ _ _ _
      (stepName_agree _ _ _ _ _ (stepClass_agree _ _ _ _ _ (stepId_agree _ _ _ _ _
        (stepTag_agree _ _ _ h)))))))))

theorem extractLoop_agree (gen1 gen2 : Nat → String) :
    ∀ (es : List HtmlElement) (s1 s2 : ExtractState), ExtractAgree s1 s2 →
      ExtractAgree (extractLoop gen1 es s1) (extractLoop gen2 es s2) := by
  intro es
  induction es with
  | nil => intro s1 s2 h; exact h
  | cons e rest ih =>
    intro s1 s2 h
    simp only [extractLoop, List.foldl_cons]
    exact ih _ _ (processElement_agree gen1 gen2 e s1 s2 h)

/-- C9: extraction is deterministic modulo the freshly generated
identifiers — two runs on the same parsed document with any two uuid
supplies agree on everything once per-record uuids are erased (kind,
selector, tag, text, type-specific fields, statistics, combined
patterns). -/
theorem extraction_deterministic_modulo_uuids (es : List HtmlElement)
    (gen1 gen2 : Nat → String) (url : Option String) :
    eraseOut (extractFromDoc gen1 es url) = eraseOut (extractFromDoc gen2 es url) := by
  obtain ⟨ho, _, _, _, _⟩ := extractLoop_agree gen1 gen2 es
    (initExtractState es url) (initExtractState es url) ⟨rfl, rfl, rfl, rfl, rfl⟩
  obtain ⟨h1, h2, h3, h4, h5, h6, h7, h8, h9, h10, h11⟩ := eraseOut_parts _ _ ho
  exact eraseOut_build _ _ h1 h2 h3 h4 h5 h6 h7 h8 h9 rfl h11

theorem stepTag_pres (e : HtmlElement) (st : ExtractState) :
    (stepTag e st).unique_ids = st.unique_ids ∧
    (stepTag e st).unique_classes = st.unique_classes ∧
    (stepTag e st).out.id_selectors = st.out.id_selectors ∧
    (stepTag e st).out.class_selectors = st.out.class_selectors := by
  unfold stepTag
  split <;> exact ⟨rfl, rfl, rfl, rfl⟩

theorem stepName_pres (gen : Nat → String) (e : HtmlElement) (st : ExtractState) :
    (stepName gen e st).unique_ids = st.unique_ids ∧
    (stepName gen e st).unique_classes = st.unique_classes ∧
    (stepName gen e st).out.id_selectors = st.out.id_selectors ∧
    (stepName gen e st).out.class_selectors = st.out.class_selectors := by
  unfold stepName
  (repeat' split) <;> exact ⟨rfl, rfl, rfl, rfl⟩

theorem stepType_pres (gen : Nat → String) (e : HtmlElement) (st : ExtractState) :
    (stepType gen e st).unique_ids = st.unique_ids ∧
    (stepType gen e st).unique_classes = st.unique_classes ∧
    (stepType gen e st).out.id_selectors = st.out.id_selectors ∧
    (stepType gen e st).out.class_selectors = st.out.class_selectors := by
  unfold stepType
  (repeat' split) <;> exact ⟨rfl, rfl, rfl, rfl⟩

theorem addImportantAttr_pres (gen : Nat → String) (e : HtmlElement)
    (st : ExtractState) (a : String) :
    (addImportantAttr gen e st a).unique_ids = st.unique_ids ∧
    (addImportantAttr gen e st a).unique_classes = st.unique_classes ∧
    (addImportantAttr gen e st a).out.id_selectors = st.out.id_selectors ∧
    (addImportantAttr gen e st a).out.class_selectors = st.out.class_selectors := by
  unfold addImportantAttr
  dsimp only
  (repeat' split) <;> exact ⟨rfl, rfl, rfl, rfl⟩

theorem stepAttrs_pres_aux (gen : Nat → String) (e : HtmlElement) :
    ∀ (l : List String) (st : ExtractState),
      ((l.foldl (addImportantAttr gen e) st).unique_ids = st.unique_ids ∧
       (l.foldl (addImportantAttr gen e) st).unique_classes = st.unique_classes ∧
       (l.foldl (addImportantAttr gen e) st).out.id_selectors = st.out.id_selectors ∧
       (l.foldl (addImportantAttr gen e) st).out.class_selectors = st.out.class_selectors) := by
  intro l
  induction l with
  | nil => intro st; exact ⟨rfl, rfl, rfl, rfl⟩
  | cons a rest ih =>
    intro st
    simp only [List.foldl_cons]
    obtain ⟨q1, q2, q3, q4⟩ := ih (addImportantAttr gen e st a)
    obtain ⟨p1, p2, p3, p4⟩ := addImportantAttr_pres gen e st a
    exact ⟨q1.trans p1, q2.trans p2, q3.trans p3, q4.trans p4⟩

theorem stepAttrs_pres (gen : Nat → String) (e : HtmlElement) (st : ExtractState) :
    (stepAttrs gen e st).unique_ids = st.unique_ids ∧
    (stepAttrs gen e st).unique_classes = st.unique_classes ∧
    (stepAttrs gen e st).out.id_selectors = st.out.id_selectors ∧
    (stepAttrs gen e st).out.class_selectors = st.out.class_selectors :=
  stepAttrs_pres_aux gen e importantAttrs st

theorem stepInput_pres (gen : Nat → String) (e : HtmlElement) (st : ExtractState) :
    (stepInput gen e st).unique_ids = st.unique_ids ∧
    (stepInput gen e st).unique_classes = st.unique_classes ∧
    (stepInput gen e st).out.id_selectors = st.out.id_selectors ∧
    (stepInput gen e st).out.class_selectors = st.out.class_selectors := by
  unfold stepInput
  split <;> exact ⟨rfl, rfl, rfl, rfl⟩

theorem stepButton_pres (gen : Nat → String) (e : HtmlElement) (st : ExtractState) :
    (stepButton gen e st).unique_ids = st.unique_ids ∧
    (stepButton gen e st).unique_classes = st.unique_classes ∧
    (stepButton gen e st).out.id_selectors = st.out.id_selectors ∧
    (stepButton gen e st).out.class_selectors = st.out.class_selectors := by
  unfold stepButton
  split <;> exact ⟨rfl, rfl, rfl, rfl⟩

theorem stepLink_pres (gen : Nat → String) (e : HtmlElement) (st : ExtractState) :
    (stepLink gen e st).unique_ids = st.unique_ids ∧
    (stepLink gen e st).unique_classes = st.unique_classes ∧
    (stepLink gen e st).out.id_selectors = st.out.id_selectors ∧
    (stepLink gen e st).out.class_selectors = st.out.class_selectors := by
  unfold stepLink
  (repeat' split) <;> exact ⟨rfl, rfl, rfl, rfl⟩

theorem stepForm_pres (gen : Nat → String) (e : HtmlElement) (st : ExtractState) :
    (stepForm gen e st).unique_ids = st.unique_ids ∧
    (stepForm gen e st).unique_classes = st.unique_classes ∧
    (stepForm gen e st).out.id_selectors = st.out.id_selectors ∧
    (stepForm gen e st).out.class_selectors = st.out.class_selectors := by
  unfold stepForm
  split <;> exact ⟨rfl, rfl, rfl, rfl⟩

theorem stepId_cls (gen : Nat → String) (e : HtmlElement) (st : ExtractState) :
    (stepId gen e st).unique_classes = st.unique_classes ∧
    (stepId gen e st).out.class_selectors = st.out.class_selectors := by
  unfold stepId
  (repeat' split) <;> exact ⟨rfl, rfl⟩

theorem addClassName_ids (gen : Nat → String) (e : HtmlElement)
    (st : ExtractState) (c : String) :
    (addClassName gen e st c).unique_ids = st.unique_ids ∧
    (addClassName gen e st c).out.id_selectors = st.out.id_selectors := by
  unfold addClassName
  split <;> exact ⟨rfl, rfl⟩

theorem foldClassNames_ids (gen : Nat → String) (e : HtmlElement) :
    ∀ (cs : List String) (st : ExtractState),
      ((cs.foldl (addClassName gen e) st).unique_ids = st.unique_ids ∧
       (cs.foldl (addClassName gen e) st).out.id_selectors = st.out.id_selectors) := by
  intro cs
  induction cs with
  | nil => intro st; exact ⟨rfl, rfl⟩
  | cons c rest ih =>
    intro st
    simp only [List.foldl_cons]
    obtain ⟨q1, q2⟩ := ih (addClassName gen e st c)
    obtain ⟨p1, p2⟩ := addClassName_ids gen e st c
    exact ⟨q1.trans p1, q2.trans p2⟩

theorem stepClass_ids (gen : Nat → String) (e : HtmlElement) (st : ExtractState) :
    (stepClass gen e st).unique_ids = st.unique_ids ∧
    (stepClass gen e st).out.id_selectors = st.out.id_selectors := by
  unfold stepClass
  by_cases hcl : e.classes = []
  · rw [if_pos hcl]
    exact ⟨rfl, rfl⟩
  · rw [if_neg hcl]
    dsimp only
    exact ⟨(foldClassNames_ids gen e e.classes st).1,
           (foldClassNames_ids gen e e.classes st).2⟩

theorem addClassName_mem (gen : Nat → String) (e : HtmlElement)
    (st : ExtractState) (c0 c : String) :
    c ∈ (addClassName gen e st c0).unique_classes ↔
      c ∈ st.unique_classes ∨ c = c0 := by
  unfold addClassName
  by_cases h : c0 ∈ st.unique_classes
  · rw [if_pos h]
    constructor
    · exact Or.inl
    · rintro (hm | rfl)
      · exact hm
      · exact h
  · rw [if_neg h]
    dsimp only
    simp [List.mem_append]

theorem foldClassNames_mem (gen : Nat → String) (e : HtmlElement) :
    ∀ (cs : List String) (st : ExtractState) (c : String),
      c ∈ (cs.foldl (addClassName gen e) st).unique_classes ↔
        c ∈ st.unique_classes ∨ c ∈ cs := by
  intro cs
  induction cs with
  | nil => intro st c; simp
  | cons c0 rest ih =>
    intro st c
    simp only [List.foldl_cons]
    rw [ih (addClassName gen e st c0) c, addClassName_mem gen e st c0 c]
    simp [List.mem_cons]
    tauto

theorem stepClass_mem (gen : Nat → String) (e : HtmlElement) (st : ExtractState)
    (c : String) :
    c ∈ (stepClass gen e st).unique_classes ↔
      c ∈ st.unique_classes ∨ c ∈ e.classes := by
  unfold stepClass
  by_cases hcl : e.classes = []
  · rw [if_pos hcl, hcl]
    simp
  · rw [if_neg hcl]
    dsimp only
    exact foldClassNames_mem gen e e.classes st c

theorem processElement_mem_classes (gen : Nat → String) (st : ExtractState)
    (e : HtmlElement) (c : String) :
    c ∈ (processElement gen st e).unique_classes ↔
      c ∈ st.unique_classes ∨ c ∈ e.classes := by
  unfold processElement
  rw [(stepForm_pres gen e _).2.1, (stepLink_pres gen e _).2.1,
      (stepButton_pres gen e _).2.1, (stepInput_pres gen e _).2.1,
      (stepAttrs_pres gen e _).2.1, (stepType_pres gen e _).2.1,
      (stepName_pres gen e _).2.1, stepClass_mem gen e _ c,
      (stepId_cls gen e _).1, (stepTag_pres e st).2.1]

theorem extractLoop_mem_classes (gen : Nat → String) :
    ∀ (es : List HtmlElement) (st : ExtractState) (c : String),
      c ∈ (extractLoop gen es st).unique_classes ↔
        c ∈ st.unique_classes ∨
          es.any (fun e2 => decide (c ∈ e2.classes)) = true := by
  intro es
  induction es with
  | nil => intro st c; simp [extractLoop]
  | cons e rest ih =>
    intro st c
    simp only [extractLoop, List.foldl_cons]
    have h1 := ih (processElement gen st e) c
    simp only [extractLoop] at h1
    rw [h1, processElement_mem_classes gen st e c]
    simp only [List.any_cons, Bool.or_eq_true, decide_eq_true_eq]
    tauto

theorem nodup_append_singleton {α : Type} (l : List α) (x : α)
    (h : l.Nodup) (hx : x ∉ l) : (l ++ [x]).Nodup := by
  simp [List.nodup_append, h, hx]

theorem addClassName_inv (gen : Nat → String) (e : HtmlElement)
    (st : ExtractState) (c0 : String) (h : InvC st) :
    InvC (addClassName gen e st c0) := by
  obtain ⟨hmap, hnd⟩ := h
  unfold addClassName
  by_cases hm : c0 ∈ st.unique_classes
  · rw [if_pos hm]
    exact ⟨hmap, hnd⟩
  · rw [if_neg hm]
    refine ⟨?_, ?_⟩
    · dsimp only
      simp [List.map_append, hmap]
    · dsimp only
      exact nodup_append_singleton _ _ hnd hm

theorem foldClassNames_inv (gen : Nat → String) (e : HtmlElement) :
    ∀ (cs : List String) (st : ExtractState), InvC st →
      InvC (cs.foldl (addClassName gen e) st) := by
  intro cs
  induction cs with
  | nil => intro st h; exact h
  | cons c rest ih =>
    intro st h
    simp only [List.foldl_cons]
    exact ih _ (addClassName_inv gen e st c h)

theorem stepClass_inv (gen : Nat → String) (e : HtmlElement) (st : ExtractState)
    (h : InvC st) : InvC (stepClass gen e st) := by
  unfold stepClass
  by_cases hcl : e.classes = []
  · rw [if_pos hcl]
    exact h
  · rw [if_neg hcl]
    dsimp only
    exact foldClassNames_inv gen e e.classes st h

theorem processElement_inv (gen : Nat → String) (st : ExtractState)
    (e : HtmlElement) (h : InvC st) : InvC (processElement gen st e) := by
  unfold processElement
  unfold InvC
  rw [(stepForm_pres gen e _).2.1, (stepForm_pres gen e _).2.2.2,
      (stepLink_pres gen e _).2.1, (stepLink_pres gen e _).2.2.2,
      (stepButton_pres gen e _).2.1, (stepButton_pres gen e _).2.2.2,
      (stepInput_pres gen e _).2.1, (stepInput_pres gen e _).2.2.2,
      (stepAttrs_pres gen e _).2.1, (stepAttrs_pres gen e _).2.2.2,
      (stepType_pres gen e _).2.1, (stepType_pres gen e _).2.2.2,
      (stepName_pres gen e _).2.1, (stepName_pres gen e _).2.2.2]
  have h2 : InvC (stepId gen e (stepTag e st)) := by
    unfold InvC
    rw [(stepId_cls gen e _).1, (stepId_cls gen e _).2,
        (stepTag_pres e st).2.1, (stepTag_pres e st).2.2.2]
    exact h
  exact stepClass_inv gen e _ h2

theorem extractLoop_inv (gen : Nat → String) :
    ∀ (es : List HtmlElement) (st : ExtractState), InvC st →
      InvC (extractLoop gen es st) := by
  intro es
  induction es with
  | nil => intro st h; exact h
  | cons e rest ih =>
    intro st h
    simp only [extractLoop, List.foldl_cons]
    have h2 := ih (processElement gen st e) (processElement_inv gen st e h)
    simp only [extractLoop] at h2
    exact h2

theorem dotInjective : Function.Injective (fun c : String => "." ++ c) := by
  intro a b hab
  have h2 : ("." ++ a).data = ("." ++ b).data := congrArg String.data hab
  rw [String.data_append, String.data_append] at h2
  exact String.ext (List.append_cancel_left h2)

theorem hashInjective : Function.Injective (fun c : String => "#" ++ c) := by
  intro a b hab
  have h2 : ("#" ++ a).data = ("#" ++ b).data := congrArg String.data hab
  rw [String.data_append, String.data_append] at h2
  exact String.ext (List.append_cancel_left h2)

theorem afterId_ids (gen : Nat → String) (e : HtmlElement) (s : ExtractState) :
    (stepForm gen e (stepLink gen e (stepButton gen e (stepInput gen e
      (stepAttrs gen e (stepType gen e (stepName gen e (stepClass gen e s)))))))).unique_ids
      = s.unique_ids ∧
    (stepForm gen e (stepLink gen e (stepButton gen e (stepInput gen e
      (stepAttrs gen e (stepType gen e (stepName gen e (stepClass gen e s)))))))).out.id_selectors
      = s.out.id_selectors := by
  constructor
  · rw [(stepForm_pres gen e _).1, (stepLink_pres gen e _).1,
        (stepButton_pres gen e _).1, (stepInput_pres gen e _).1,
        (stepAttrs_pres gen e _).1, (stepType_pres gen e _).1,
        (stepName_pres gen e _).1, (stepClass_ids gen e _).1]
  · rw [(stepForm_pres gen e _).2.2.1, (stepLink_pres gen e _).2.2.1,
        (stepButton_pres gen e _).2.2.1, (stepInput_pres gen e _).2.2.1,
        (stepAttrs_pres gen e _).2.2.1, (stepType_pres gen e _).2.2.1,
        (stepName_pres gen e _).2.2.1, (stepClass_ids gen e _).2]

theorem stepId_none (gen : Nat → String) (e : HtmlElement) (st : ExtractState)
    (h : getTruthy e "id" = none) : stepId gen e st = st := by
  simp only [stepId, h]

theorem stepId_dup (gen : Nat → String) (e : HtmlElement) (st : ExtractState)
    (i : String) (h : getTruthy e "id" = some i) (hm : i ∈ st.unique_ids) :
    stepId gen e st = st := by
  simp only [stepId, h]
  rw [if_pos hm]

theorem stepId_new (gen : Nat → String) (e : HtmlElement) (st : ExtractState)
    (i : String) (h : getTruthy e "id" = some i) (hm : i ∉ st.unique_ids) :
    (stepId gen e st).out.id_selectors = st.out.id_selectors ++
      [{ uuid := gen st.counter, selector := "#" ++ i, tag := e.tag,
         text_content := strTake 200 e.text }] ∧
    (stepId gen e st).unique_ids = st.unique_ids ++ [i] := by
  simp only [stepId, h]
  rw [if_neg hm]
  exact ⟨rfl, rfl⟩

theorem processElement_ids_skip (gen : Nat → String) (st : ExtractState)
    (e : HtmlElement)
    (h : getTruthy e "id" = none ∨ ∃ i, getTruthy e "id" = some i ∧ i ∈ st.unique_ids) :
    (processElement gen st e).out.id_selectors = st.out.id_selectors ∧
    (processElement gen st e).unique_ids = st.unique_ids := by
  have hskip : stepId gen e (stepTag e st) = stepTag e st := by
    rcases h with h | ⟨i, hi, hm⟩
    · exact stepId_none gen e _ h
    · refine stepId_dup gen e _ i hi ?_
      rw [(stepTag_pres e st).1]
      exact hm
  unfold processElement
  obtain ⟨ha1, ha2⟩ := afterId_ids gen e (stepId gen e (stepTag e st))
  constructor
  · exact ha2.trans ((congrArg (fun s => s.out.id_selectors) hskip).trans
      (stepTag_pres e st).2.2.1)
  · exact ha1.trans ((congrArg (fun s => s.unique_ids) hskip).trans
      (stepTag_pres e st).1)

theorem processElement_ids_new (gen : Nat → String) (st : ExtractState)
    (e : HtmlElement) (i : String) (h : getTruthy e "id" = some i)
    (hm : i ∉ st.unique_ids) :
    ∃ u, (processElement gen st e).out.id_selectors = st.out.id_selectors ++
        [{ uuid := u, selector := "#" ++ i, tag := e.tag,
           text_content := strTake 200 e.text }] ∧
      (processElement gen st e).unique_ids = st.unique_ids ++ [i] := by
  have hm2 : i ∉ (stepTag e st).unique_ids := by
    rw [(stepTag_pres e st).1]; exact hm
  obtain ⟨hnew1, hnew2⟩ := stepId_new gen e (stepTag e st) i h hm2
  unfold processElement
  obtain ⟨ha1, ha2⟩ := afterId_ids gen e (stepId gen e (stepTag e st))
  refine ⟨gen (stepTag e st).counter, ?_, ?_⟩
  · rw [ha2, hnew1, (stepTag_pres e st).2.2.1]
  · rw [ha1, hnew2, (stepTag_pres e st).1]

theorem extractLoop_idfilter_notin (gen : Nat → String) (i : String) :
    ∀ (es : List HtmlElement) (st : ExtractState),
      (∀ e2 ∈ es, getTruthy e2 "id" ≠ some i) →
      i ∉ st.unique_ids →
      ((extractLoop gen es st).out.id_selectors.filter
          (fun r => r.selector == "#" ++ i) =
        st.out.id_selectors.filter (fun r => r.selector == "#" ++ i) ∧
       i ∉ (extractLoop gen es st).unique_ids) := by
  intro es
  induction es with
  | nil => intro st _ hnotin; exact ⟨rfl, hnotin⟩
  | cons e rest ih =>
    intro st hall hnotin
    have hstep : extractLoop gen (e :: rest) st =
        extractLoop gen rest (processElement gen st e) := by
      simp only [extractLoop, List.foldl_cons]
    rw [hstep]
    have hrest : ∀ e2 ∈ rest, getTruthy e2 "id" ≠ some i :=
      fun e2 he2 => hall e2 (List.mem_cons_of_mem e he2)
    cases hg : getTruthy e "id" with
    | none =>
      obtain ⟨hp1, hp2⟩ := processElement_ids_skip gen st e (Or.inl hg)
      have hnotin2 : i ∉ (processElement gen st e).unique_ids := by
        rw [hp2]; exact hnotin
      obtain ⟨hq1, hq2⟩ := ih (processElement gen st e) hrest hnotin2
      exact ⟨hq1.trans (by rw [hp1]), hq2⟩
    | some i2 =>
      by_cases hmem : i2 ∈ st.unique_ids
      · obtain ⟨hp1, hp2⟩ := processElement_ids_skip gen st e (Or.inr ⟨i2, hg, hmem⟩)
        have hnotin2 : i ∉ (processElement gen st e).unique_ids := by
          rw [hp2]; exact hnotin
        obtain ⟨hq1, hq2⟩ := ih (processElement gen st e) hrest hnotin2
        exact ⟨hq1.trans (by rw [hp1]), hq2⟩
      · have hne : i2 ≠ i := by
          intro hEq
          exact hall e (List.mem_cons_self e rest) (hEq ▸ hg)
        obtain ⟨u, hp1, hp2⟩ := processElement_ids_new gen st e i2 hg hmem
        have hbeq : (("#" ++ i2 : String) == "#" ++ i) = false := by
          refine beq_eq_false_iff_ne.mpr ?_
          intro hc
          exact hne (hashInjective hc)
        have hfilter : (processElement gen st e).out.id_selectors.filter
            (fun r => r.selector == "#" ++ i) =
            st.out.id_selectors.filter (fun r => r.selector == "#" ++ i) := by
          rw [hp1, List.filter_append]
          simp [hbeq]
        have hnotin2 : i ∉ (processElement gen st e).unique_ids := by
          rw [hp2]
          intro hmm
          rcases List.mem_append.mp hmm with hmm | hmm
          · exact hnotin hmm
          · exact hne.symm (List.mem_singleton.mp hmm)
        obtain ⟨hq1, hq2⟩ := ih (processElement gen st e) hrest hnotin2
        exact ⟨hq1.trans hfilter, hq2⟩

theorem extractLoop_idfilter_in (gen : Nat → String) (i : String) :
    ∀ (es : List HtmlElement) (st : ExtractState),
      i ∈ st.unique_ids →
      ((extractLoop gen es st).out.id_selectors.filter
          (fun r => r.selector == "#" ++ i) =
        st.out.id_selectors.filter (fun r => r.selector == "#" ++ i) ∧
       i ∈ (extractLoop gen es st).unique_ids) := by
  intro es
  induction es with
  | nil => intro st hin; exact ⟨rfl, hin⟩
  | cons e rest ih =>
    intro st hin
    have hstep : extractLoop gen (e :: rest) st =
        extractLoop gen rest (processElement gen st e) := by
      simp only [extractLoop, List.foldl_cons]
    rw [hstep]
    cases hg : getTruthy e "id" with
    | none =>
      obtain ⟨hp1, hp2⟩ := processElement_ids_skip gen st e (Or.inl hg)
      have hin2 : i ∈ (processElement gen st e).unique_ids := by
        rw [hp2]; exact hin
      obtain ⟨hq1, hq2⟩ := ih (processElement gen st e) hin2
      exact ⟨hq1.trans (by rw [hp1]), hq2⟩
    | some i2 =>
      by_cases hmem : i2 ∈ st.unique_ids
      · obtain ⟨hp1, hp2⟩ := processElement_ids_skip gen st e (Or.inr ⟨i2, hg, hmem⟩)
        have hin2 : i ∈ (processElement gen st e).unique_ids := by
          rw [hp2]; exact hin
        obtain ⟨hq1, hq2⟩ := ih (processElement gen st e) hin2
        exact ⟨hq1.trans (by rw [hp1]), hq2⟩
      · have hne : i2 ≠ i := by
          intro hEq
          rw [hEq] at hmem
          exact hmem hin
        obtain ⟨u, hp1, hp2⟩ := processElement_ids_new gen st e i2 hg hmem
        have hbeq : (("#" ++ i2 : String) == "#" ++ i) = false := by
          refine beq_eq_false_iff_ne.mpr ?_
          intro hc
          exact hne (hashInjective hc)
        have hfilter : (processElement gen st e).out.id_selectors.filter
            (fun r => r.selector == "#" ++ i) =
            st.out.id_selectors.filter (fun r => r.selector == "#" ++ i) := by
          rw [hp1, List.filter_append]
          simp [hbeq]
        have hin2 : i ∈ (processElement gen st e).unique_ids := by
          rw [hp2]
          exact List.mem_append.mpr (Or.inl hin)
        obtain ⟨hq1, hq2⟩ := ih (processElement gen st e) hin2
        exact ⟨hq1.trans hfilter, hq2⟩

/-- C7: the extractor de-duplicates by exact value within each kind: a
class value occurring anywhere in the document yields exactly one
class-candidate `"." ++ c` (one candidate even for ten elements sharing
`class="btn"`), and a repeated id value yields exactly one id-candidate,
built from the first element carrying it. -/
theorem extractor_dedup_by_value (es : List HtmlElement) (gen : Nat → String)
    (url : Option String) (c : String) :
    (((extractFromDoc gen es url).class_selectors.map
        (fun r => r.selector)).count ("." ++ c) =
      if es.any (fun e2 => decide (c ∈ e2.classes)) = true then 1 else 0) ∧
    (∀ (pre : List HtmlElement) (e : HtmlElement) (post : List HtmlElement)
       (i : String),
      es = pre ++ e :: post →
      getTruthy e "id" = some i →
      (∀ e2 ∈ pre, getTruthy e2 "id" ≠ some i) →
      ∃ u, (extractFromDoc gen es url).id_selectors.filter
          (fun r => r.selector == "#" ++ i) =
        [{ uuid := u, selector := "#" ++ i, tag := e.tag,
           text_content := strTake 200 e.text }]) := by
  constructor
  · have hInv := extractLoop_inv gen es (initExtractState es url) ⟨rfl, List.nodup_nil⟩
    have hcs : (extractFromDoc gen es url).class_selectors =
        (extractLoop gen es (initExtractState es url)).out.class_selectors := rfl
    rw [hcs, hInv.1, List.count_map_of_injective _ _ dotInjective c]
    have hmem := extractLoop_mem_classes gen es (initExtractState es url) c
    by_cases hany : es.any (fun e2 => decide (c ∈ e2.classes)) = true
    · rw [if_pos hany]
      have hcmem : c ∈ (extractLoop gen es (initExtractState es url)).unique_classes :=
        hmem.mpr (Or.inr hany)
      have h1 : 0 < List.count c
          (extractLoop gen es (initExtractState es url)).unique_classes :=
        List.count_pos_iff.mpr hcmem
      have h2 : List.count c
          (extractLoop gen es (initExtractState es url)).unique_classes ≤ 1 :=
        List.nodup_iff_count_le_one.mp hInv.2 c
      omega
    · rw [if_neg hany]
      refine List.count_eq_zero.mpr ?_
      intro hcm
      rcases hmem.mp hcm with h0 | h0
      · exact absurd h0 (List.not_mem_nil c)
      · exact hany h0
  · intro pre e post i hsplit hid hpre
    subst hsplit
    have hloop : extractLoop gen (pre ++ e :: post)
        (initExtractState (pre ++ e :: post) url) =
        extractLoop gen post (processElement gen
          (extractLoop gen pre (initExtractState (pre ++ e :: post) url)) e) := by
      simp only [extractLoop, List.foldl_append, List.foldl_cons]
    have hpre2 := extractLoop_idfilter_notin gen i pre
      (initExtractState (pre ++ e :: post) url) hpre (List.not_mem_nil i)
    obtain ⟨u, hids, huniq⟩ := processElement_ids_new gen
      (extractLoop gen pre (initExtractState (pre ++ e :: post) url)) e i hid hpre2.2
    have hin : i ∈ (processElement gen
        (extractLoop gen pre (initExtractState (pre ++ e :: post) url)) e).unique_ids := by
      rw [huniq]
      exact List.mem_append.mpr (Or.inr (List.mem_singleton.mpr rfl))
    have hpost := extractLoop_idfilter_in gen i post (processElement gen
      (extractLoop gen pre (initExtractState (pre ++ e :: post) url)) e) hin
    refine ⟨u, ?_⟩
    have hfinal : (extractFromDoc gen (pre ++ e :: post) url).id_selectors =
        (extractLoop gen (pre ++ e :: post)
          (initExtractState (pre ++ e :: post) url)).out.id_selectors := rfl
    rw [hfinal, hloop, hpost.1, hids, List.filter_append, hpre2.1]
    simp [initExtractState]

theorem extractor_dedup_by_value_witness :
    (((extractFromDoc genU tenBtnElements none).class_selectors.map
        (fun r => r.selector)).count ("." ++ "btn") = 1) ∧
    ∃ u, (extractFromDoc genU dupIdElements none).id_selectors.filter
        (fun r => r.selector == "#" ++ "dup") =
      [{ uuid := u, selector := "#" ++ "dup", tag := dupA.tag,
         text_content := strTake 200 dupA.text }] := by
  constructor
  · have h := (extractor_dedup_by_value tenBtnElements genU none "btn").1
    rw [h]
    decide
  · exact (extractor_dedup_by_value dupIdElements genU none "x").2 [] dupA [dupB]
      "dup" rfl (by decide) (fun e2 he2 => absurd he2 (List.not_mem_nil e2))
